import Mathlib

/-!
# luminance-converter: embedding of `main.go` and its tier-lookup properties

The Go program recolours an image: every pixel is classified by its luminance
into a tier given by a list of thresholds, and replaced by the tier's colour.

Modelling conventions.

* `float64` values are modelled by `Float64`: a NaN, the two infinities and the
  finite values, a finite value being the rational number it denotes (the two
  signed zeros are the one value `fin 0`; they compare equal in Go).
  Comparisons follow IEEE 754: every comparison with NaN is false.
* `float64` arithmetic on finite values is exact rational arithmetic followed
  by `round64`, round-to-nearest-even to 53 significant bits (gradual underflow
  below `2 ^ -1022`). Every operation is rounded on its own; a compiler that fuses
  `x*y + z` into one rounded operation is not modelled. `Float64.fin` admits every
  rational, so a statement over all `Float64` covers all float64 values.
* `strconv.ParseFloat` and `strconv.ParseUint` are parameters of the table
  construction; `strings.Split` with a one-character separator is `split`.
* Opening, decoding and encoding files are outside the embedding; an image is its
  bounds and its `At`.
* `uint8` / `uint32` values are natural numbers, reduced `% 2 ^ w` where the
  source converts.
* `log.Fatalf` and run-time panics end the run; they are the `Except.error`
  results of the embedding.
-/

namespace LuminanceConverter

/-! ## float64 -/

/-- Values of Go's `float64`. -/
inductive Float64 where
  | nan : Float64
  | negInf : Float64
  | fin (q : ℚ) : Float64
  | posInf : Float64
deriving DecidableEq

namespace Float64

/-- Go's `a < b` on `float64` (IEEE 754: false when either side is NaN). -/
def lt : Float64 → Float64 → Prop
  | fin a, fin b => a < b
  | negInf, fin _ => True
  | negInf, posInf => True
  | fin _, posInf => True
  | _, _ => False

/-- Go's `a <= b` on `float64` (IEEE 754: false when either side is NaN). -/
def le : Float64 → Float64 → Prop
  | fin a, fin b => a ≤ b
  | negInf, negInf => True
  | negInf, fin _ => True
  | negInf, posInf => True
  | fin _, posInf => True
  | posInf, posInf => True
  | _, _ => False

/-- Go's `a == b` on `float64` (IEEE 754: NaN differs from everything). -/
def eq : Float64 → Float64 → Prop
  | fin a, fin b => a = b
  | negInf, negInf => True
  | posInf, posInf => True
  | _, _ => False

instance decLt (a b : Float64) : Decidable (lt a b) := by
  cases a <;> cases b <;> unfold lt <;> infer_instance

instance decLe (a b : Float64) : Decidable (le a b) := by
  cases a <;> cases b <;> unfold le <;> infer_instance

instance decEqual (a b : Float64) : Decidable (eq a b) := by
  cases a <;> cases b <;> unfold eq <;> infer_instance

end Float64

/-! ## Colours -/

/-- Go's `color.RGBA`: four `uint8` channels. -/
structure RGBA where
  R : ℕ
  G : ℕ
  B : ℕ
  A : ℕ
deriving DecidableEq

/-- What ends a run early: `log.Fatalf` calls and run-time panics. -/
inductive Failure where
  /-- `log.Fatalf("luminance is over all thresholds, ...")` in `convertLuminance`. -/
  | luminanceOverThresholds : Failure
  /-- Run-time panic: slice index out of range. -/
  | indexOutOfRange : Failure
  /-- `log.Fatalf("invalid luminance threshold ...")` in `run`. -/
  | invalidThreshold (token : String) : Failure
  /-- `log.Fatalf("invalid converted color ...")` in `run`. -/
  | invalidColor (token : String) : Failure
deriving DecidableEq

/-- Go's `hex&0xFF0000>>16` etc.: `&` and `>>` have the same precedence and
associate to the left, `uint8(...)` keeps the low eight bits. `color.RGBA{R, G, B}`
leaves the alpha field at its zero value. -/
def hexToColor (hex : ℕ) : RGBA :=
  let r := ((hex &&& 0xFF0000) >>> 16) % 256
  let g := ((hex &&& 0x00FF00) >>> 8) % 256
  let b := (hex &&& 0x0000FF) % 256
  { R := r, G := g, B := b, A := 0 }

/-! ## Tier lookup -/

/-- The condition of the `if` in `convertLuminance`:
`l > thresholds[i] && l <= thresholds[i+1] || l == 0`, on the two thresholds read. -/
def tierCond (l lo hi : Float64) : Prop :=
  (Float64.lt lo l ∧ Float64.le l hi) ∨ Float64.eq l (Float64.fin 0)

instance decTierCond (l lo hi : Float64) : Decidable (tierCond l lo hi) := by
  unfold tierCond; infer_instance

/-- The `for` loop of `convertLuminance` from index `i` on, with `k` iterations left
(`k = len(thresholds)-1-i`). Slice reads out of range panic. -/
def convertLuminanceLoop (l : Float64) (thresholds : List Float64) (converted : List RGBA) :
    ℕ → ℕ → Except Failure RGBA
  | 0, _ => Except.error Failure.luminanceOverThresholds
  | k + 1, i =>
    match thresholds[i]?, thresholds[i + 1]? with
    | some lo, some hi =>
      if tierCond l lo hi then
        match converted[i]? with
        | some c => Except.ok c
        | none => Except.error Failure.indexOutOfRange
      else convertLuminanceLoop l thresholds converted k (i + 1)
    | _, _ => Except.error Failure.indexOutOfRange

/-- Go's `convertLuminance`: `for i := 0; i < len(thresholds)-1; i++`. -/
def convertLuminance (l : Float64) (thresholds : List Float64) (converted : List RGBA) :
    Except Failure RGBA :=
  convertLuminanceLoop l thresholds converted (thresholds.length - 1) 0

/-- Go's `converted[i]` as a result: the element, or the index panic. -/
def colorAt (converted : List RGBA) (i : ℕ) : Except Failure RGBA :=
  match converted[i]? with
  | some c => Except.ok c
  | none => Except.error Failure.indexOutOfRange

/-- Tier `i` matches luminance `l`: both thresholds exist and the loop's condition
holds on them. -/
def tierMatches (l : Float64) (thresholds : List Float64) (i : ℕ) : Prop :=
  match thresholds[i]?, thresholds[i + 1]? with
  | some lo, some hi => tierCond l lo hi
  | _, _ => False

instance decTierMatches (l : Float64) (thresholds : List Float64) (i : ℕ) :
    Decidable (tierMatches l thresholds i) := by
  unfold tierMatches; split <;> infer_instance

/-! ## float64 arithmetic -/

/-- Round a rational to the nearest integer, ties to the even one. -/
def roundNearestEven (m : ℚ) : ℤ :=
  let f := ⌊m⌋
  if m - f < 1 / 2 then f
  else if 1 / 2 < m - f then f + 1
  else if f % 2 = 0 then f else f + 1

/-- Exponent of the unit in the last place at `q`: 52 below the binary exponent of
`q`, the binary exponent being at least -1022 (subnormal range). -/
def ulpExp (q : ℚ) : ℤ := max (Int.log 2 |q|) (-1022) - 52

/-- The float64 nearest to the rational `q` (round to nearest, ties to even), for
`q` below the overflow threshold `2 ^ 1024` in magnitude. -/
def round64 (q : ℚ) : ℚ := (roundNearestEven (q / 2 ^ ulpExp q) : ℚ) * 2 ^ ulpExp q

/-- Go's `x * y` on finite `float64` values (result below the overflow threshold). -/
def fmul (x y : ℚ) : ℚ := round64 (x * y)

/-- Go's `x + y` on finite `float64` values (result below the overflow threshold). -/
def fadd (x y : ℚ) : ℚ := round64 (x + y)

/-- Go's `x / y` on finite `float64` values, `y` not zero (result below the overflow
threshold). -/
def fdiv (x y : ℚ) : ℚ := round64 (x / y)

/-! ## Pixels and luminance -/

/-- A `color.Color` as seen through its `RGBA()` method: four `uint32` samples. -/
structure Color where
  r : ℕ
  g : ℕ
  b : ℕ
  a : ℕ
deriving DecidableEq

/-- One channel of `luminance`: `float64(r)/65536 * 100`. -/
def channelPercent (r : ℕ) : ℚ := fmul (fdiv (round64 (r : ℚ)) 65536) 100

/-- Go's `luminance`. The constants `.2126`, `.7152`, `.0722` are the float64 values
nearest to the decimals; every operation is rounded on its own (no fused
multiply-add). The alpha sample is read and discarded. -/
def luminance (c : Color) : Float64 :=
  let rf := channelPercent c.r
  let gf := channelPercent c.g
  let bf := channelPercent c.b
  Float64.fin
    (fadd (fadd (fmul rf (round64 (2126 / 10000))) (fmul gf (round64 (7152 / 10000))))
      (fmul bf (round64 (722 / 10000))))

/-! ## Images -/

/-- Go's `image.Rectangle`: `Min` inclusive, `Max` exclusive. -/
structure Rectangle where
  minX : ℤ
  minY : ℤ
  maxX : ℤ
  maxY : ℤ
deriving DecidableEq

/-- Go's `image.Point.In`: the point lies in the rectangle. -/
def Rectangle.contains (r : Rectangle) (x y : ℤ) : Prop :=
  r.minX ≤ x ∧ x < r.maxX ∧ r.minY ≤ y ∧ y < r.maxY

instance decContains (r : Rectangle) (x y : ℤ) : Decidable (r.contains x y) := by
  unfold Rectangle.contains; infer_instance

/-- A decoded `image.Image`: its `Bounds()` and its `At(x, y)`. -/
structure Image where
  bounds : Rectangle
  At : ℤ → ℤ → Color

/-- Go's `*image.RGBA`: its rectangle and the stored pixels. -/
structure RGBAImage where
  rect : Rectangle
  pix : ℤ → ℤ → RGBA

/-- Go's `image.NewRGBA(b)`: every pixel is the zero `color.RGBA`. -/
def newRGBA (b : Rectangle) : RGBAImage :=
  { rect := b, pix := fun _ _ => { R := 0, G := 0, B := 0, A := 0 } }

/-- Go's `(*image.RGBA).Set`: no effect outside the rectangle; a `color.RGBA` is
stored as it is. -/
def RGBAImage.Set (img : RGBAImage) (x y : ℤ) (c : RGBA) : RGBAImage :=
  if img.rect.contains x y then
    { rect := img.rect, pix := fun x2 y2 => if x2 = x ∧ y2 = y then c else img.pix x2 y2 }
  else img

/-- Go's `(*image.RGBA).RGBAAt`: the zero colour outside the rectangle. -/
def RGBAImage.RGBAAt (img : RGBAImage) (x y : ℤ) : RGBA :=
  if img.rect.contains x y then img.pix x y else { R := 0, G := 0, B := 0, A := 0 }

/-- The inner loop of `convertImage`, `for x := ...; x < b.Max.X; x++`, from `x` on
with `k` iterations left. -/
def convertRow (img : Image) (thresholds : List Float64) (colors : List RGBA) (y : ℤ) :
    ℕ → ℤ → RGBAImage → Except Failure RGBAImage
  | 0, _, converted => Except.ok converted
  | k + 1, x, converted =>
    match convertLuminance (luminance (img.At x y)) thresholds colors with
    | Except.ok c => convertRow img thresholds colors y k (x + 1) (converted.Set x y c)
    | Except.error e => Except.error e

/-- The outer loop of `convertImage`, `for y := ...; y < b.Max.Y; y++`, from `y` on
with `k` iterations left. -/
def convertRows (img : Image) (thresholds : List Float64) (colors : List RGBA) :
    ℕ → ℤ → RGBAImage → Except Failure RGBAImage
  | 0, _, converted => Except.ok converted
  | k + 1, y, converted =>
    match convertRow img thresholds colors y
        (img.bounds.maxX - img.bounds.minX).toNat img.bounds.minX converted with
    | Except.ok converted2 => convertRows img thresholds colors k (y + 1) converted2
    | Except.error e => Except.error e

/-- Go's `convertImage` (for bounds with `Min <= Max`, as decoded images have). -/
def convertImage (img : Image) (thresholds : List Float64) (colors : List RGBA) :
    Except Failure RGBAImage :=
  convertRows img thresholds colors (img.bounds.maxY - img.bounds.minY).toNat
    img.bounds.minY (newRGBA img.bounds)

/-! ## Table construction in `run` -/

/-- Split a character list at every `sep`. -/
def splitChars (sep : Char) : List Char → List (List Char)
  | [] => [[]]
  | c :: cs =>
    if c = sep then [] :: splitChars sep cs
    else
      match splitChars sep cs with
      | [] => [[c]]
      | w :: ws => (c :: w) :: ws

/-- Go's `strings.Split(s, sep)` for a one-character separator. -/
def split (s : String) (sep : Char) : List String :=
  (splitChars sep s.data).map String.mk

/-- The first loop of `run`. `parseFloat` stands for `strconv.ParseFloat(t, 64)`:
`none` when it returns an error. -/
def parseThresholds (parseFloat : String → Option Float64) :
    List String → List Float64 → Except Failure (List Float64)
  | [], thresholds => Except.ok thresholds
  | t :: ts, thresholds =>
    match parseFloat t with
    | none => Except.error (Failure.invalidThreshold t)
    | some th =>
      if Float64.lt th (Float64.fin 0) ∨ Float64.lt (Float64.fin 100) th then
        Except.error (Failure.invalidThreshold t)
      else parseThresholds parseFloat ts (thresholds ++ [th])

/-- The second loop of `run`. `parseUint` stands for `strconv.ParseUint(c, 16, 32)`:
`none` when it returns an error. `h < 0` is never true of an unsigned value. -/
def parseColors (parseUint : String → Option ℕ) :
    List String → List RGBA → Except Failure (List RGBA)
  | [], convertedColors => Except.ok convertedColors
  | c :: cs, convertedColors =>
    match parseUint c with
    | none => Except.error (Failure.invalidColor c)
    | some h =>
      if 0xFFFFFF < h then Except.error (Failure.invalidColor c)
      else parseColors parseUint cs (convertedColors ++ [hexToColor (h % 2 ^ 32)])

/-- The table built by `run` from the flags `t` and `c`: both lists parsed, then the
sentinel threshold `100.0` and a copy of the last colour appended. -/
def buildTable (parseFloat : String → Option Float64) (parseUint : String → Option ℕ)
    (t c : String) : Except Failure (List Float64 × List RGBA) :=
  match parseThresholds parseFloat (split t ',') [] with
  | Except.error e => Except.error e
  | Except.ok thresholds =>
    match parseColors parseUint (split c ',') [] with
    | Except.error e => Except.error e
    | Except.ok convertedColors =>
      match convertedColors.getLast? with
      | none => Except.error Failure.indexOutOfRange
      | some last => Except.ok (thresholds ++ [Float64.fin 100], convertedColors ++ [last])

/-- Go's `run`, from the flags and the decoded image to the converted image
(opening, decoding and encoding files are outside the embedding). -/
def run (parseFloat : String → Option Float64) (parseUint : String → Option ℕ)
    (t c : String) (img : Image) : Except Failure RGBAImage :=
  match buildTable parseFloat parseUint t c with
  | Except.error e => Except.error e
  | Except.ok (thresholds, convertedColors) => convertImage img thresholds convertedColors

/-! ## Parsers for concrete runs -/

/-- Value of a hexadecimal digit, as `strconv.ParseUint` reads it in base 16. -/
def hexDigit (c : Char) : Option ℕ :=
  if '0' ≤ c ∧ c ≤ '9' then some (c.toNat - '0'.toNat)
  else if 'a' ≤ c ∧ c ≤ 'f' then some (c.toNat - 'a'.toNat + 10)
  else if 'A' ≤ c ∧ c ≤ 'F' then some (c.toNat - 'A'.toNat + 10)
  else none

/-- Accumulate hexadecimal digits, most significant first. -/
def parseHexDigits : List Char → ℕ → Option ℕ
  | [], n => some n
  | c :: cs, n =>
    match hexDigit c with
    | none => none
    | some d => parseHexDigits cs (16 * n + d)

/-- `strconv.ParseUint(s, 16, 32)`: an error for the empty string, for a character
that is no hexadecimal digit, and for a value that does not fit 32 bits. -/
def parseUintHex32 (s : String) : Option ℕ :=
  match s.data with
  | [] => none
  | cs =>
    match parseHexDigits cs 0 with
    | none => none
    | some n => if n < 2 ^ 32 then some n else none

/-- Accumulate decimal digits, most significant first. -/
def parseDecimalDigits : List Char → ℕ → Option ℕ
  | [], n => some n
  | c :: cs, n =>
    if '0' ≤ c ∧ c ≤ '9' then parseDecimalDigits cs (10 * n + (c.toNat - '0'.toNat))
    else none

/-- The part of `strconv.ParseFloat(s, 64)` on plain decimal integers of at most 15
digits, which are float64 values as they stand; every other string is left
unparsed here. -/
def parseFloatDigits (s : String) : Option Float64 :=
  match s.data with
  | [] => none
  | cs =>
    if cs.length ≤ 15 then
      match parseDecimalDigits cs 0 with
      | none => none
      | some n => some (Float64.fin (n : ℚ))
    else none

/-- The part of `strconv.ParseFloat(s, 64)` on the word `NaN` in any letter case and
on plain decimal integers of at most 15 digits. -/
def parseFloatWords (s : String) : Option Float64 :=
  if s.data.map Char.toLower = ['n', 'a', 'n'] then some Float64.nan
  else parseFloatDigits s

/-! ## A concrete image -/

/-- A grey pixel: the three colour samples equal, fully opaque. -/
def grey (v : ℕ) : Color := { r := v, g := v, b := v, a := 65535 }

/-- A 2x2 image: black and a dark grey on the first row, a light grey and white on
the second. -/
def sampleImage : Image :=
  { bounds := { minX := 0, minY := 0, maxX := 2, maxY := 2 },
    At := fun x y =>
      if y = 0 then (if x = 0 then grey 0 else grey 19661)
      else (if x = 0 then grey 39322 else grey 65535) }

/-! ## The selected tier -/

/-- The `for` loop of `convertLuminance` once more, giving the index `i` at which it
executes `return converted[i]`, and no index when it falls through to the fatal
branch. -/
def selectedTierLoop (l : Float64) (thresholds : List Float64) : ℕ → ℕ → Option ℕ
  | 0, _ => none
  | k + 1, i =>
    match thresholds[i]?, thresholds[i + 1]? with
    | some lo, some hi =>
      if tierCond l lo hi then some i else selectedTierLoop l thresholds k (i + 1)
    | _, _ => none

/-- The tier index `convertLuminance` selects for `l`. -/
def selectedTier (l : Float64) (thresholds : List Float64) : Option ℕ :=
  selectedTierLoop l thresholds (thresholds.length - 1) 0

/-! ## Notions used in the statements -/

/-- A value in the closed interval `[0, 100]`, by Go's comparisons. -/
def inPercentRange (l : Float64) : Prop :=
  Float64.le (Float64.fin 0) l ∧ Float64.le l (Float64.fin 100)

instance decInPercentRange (l : Float64) : Decidable (inPercentRange l) := by
  unfold inPercentRange; infer_instance

/-- Thresholds sorted ascending: each threshold is `<=` the next one. -/
def sortedAscending (thresholds : List Float64) : Prop :=
  List.Chain' Float64.le thresholds

/-- Tier `i` contains `l`, in the words of the specification: `l` lies in
`(thresholds[i], thresholds[i+1]]`, and `l = 0` belongs to the first tier. -/
def tierContains (thresholds : List Float64) (i : ℕ) (l : Float64) : Prop :=
  match thresholds[i]?, thresholds[i + 1]? with
  | some lo, some hi =>
    (Float64.lt lo l ∧ Float64.le l hi) ∨ (Float64.eq l (Float64.fin 0) ∧ i = 0)
  | _, _ => False

/-! ## Lemmas on the tier lookup -/

lemma tierMatches_iff (l : Float64) (ths : List Float64) (i : ℕ) :
    tierMatches l ths i ↔
      ∃ lo hi, ths[i]? = some lo ∧ ths[i + 1]? = some hi ∧ tierCond l lo hi := by
  unfold tierMatches
  split
  · next lo hi h1 h2 =>
    constructor
    · intro h; exact ⟨lo, hi, h1, h2, h⟩
    · rintro ⟨lo2, hi2, e1, e2, h⟩
      rw [h1] at e1; rw [h2] at e2
      cases e1; cases e2; exact h
  · next hno =>
    constructor
    · intro h; exact h.elim
    · rintro ⟨lo2, hi2, e1, e2, -⟩
      exact hno lo2 hi2 e1 e2

lemma tierMatches_lt {l : Float64} {ths : List Float64} {i : ℕ}
    (h : tierMatches l ths i) : i + 1 < ths.length := by
  obtain ⟨lo, hi, -, e2, -⟩ := (tierMatches_iff l ths i).1 h
  by_contra hlt
  rw [List.getElem?_eq_none (by omega)] at e2
  cases e2

lemma colorAt_ne_fatal (cols : List RGBA) (i : ℕ) :
    colorAt cols i ≠ Except.error Failure.luminanceOverThresholds := by
  unfold colorAt
  split <;> simp

lemma colorAt_of_lt {cols : List RGBA} {i : ℕ} (h : i < cols.length) :
    colorAt cols i = Except.ok (cols.get ⟨i, h⟩) := by
  unfold colorAt
  simp [List.getElem?_eq_getElem h]

lemma colorAt_of_le {cols : List RGBA} {i : ℕ} (h : cols.length ≤ i) :
    colorAt cols i = Except.error Failure.indexOutOfRange := by
  unfold colorAt
  simp [List.getElem?_eq_none h]

/-- With no matching tier among the `k` indices from `i` on, the loop ends in the
fatal branch. -/
lemma loop_no_match (l : Float64) (ths : List Float64) (cols : List RGBA) :
    ∀ (k i : ℕ), (k = 0 ∨ i + k < ths.length) →
      (∀ j, i ≤ j → j < i + k → ¬ tierMatches l ths j) →
      convertLuminanceLoop l ths cols k i = Except.error Failure.luminanceOverThresholds := by
  intro k
  induction k with
  | zero => intro i _ _; rfl
  | succ k ih =>
    intro i hk hno
    have hlen : i + (k + 1) < ths.length := by
      rcases hk with h | h
      · omega
      · exact h
    have h0 : ths[i]? = some (ths.get ⟨i, by omega⟩) := List.getElem?_eq_getElem (by omega)
    have h1 : ths[i + 1]? = some (ths.get ⟨i + 1, by omega⟩) :=
      List.getElem?_eq_getElem (by omega)
    have hc : ¬ tierCond l (ths.get ⟨i, by omega⟩) (ths.get ⟨i + 1, by omega⟩) := by
      intro hc
      exact hno i (le_refl i) (by omega) ((tierMatches_iff l ths i).2 ⟨_, _, h0, h1, hc⟩)
    unfold convertLuminanceLoop
    rw [h0, h1]
    simp only [hc, if_false]
    apply ih (i + 1)
    · right; omega
    · intro j hj1 hj2
      exact hno j (by omega) (by omega)

/-- The loop returns `converted[j]` at the first matching tier `j`. -/
lemma loop_first_match (l : Float64) (ths : List Float64) (cols : List RGBA) :
    ∀ (k i j : ℕ), i ≤ j → j < i + k → tierMatches l ths j →
      (∀ j2, i ≤ j2 → j2 < j → ¬ tierMatches l ths j2) →
      convertLuminanceLoop l ths cols k i = colorAt cols j := by
  intro k
  induction k with
  | zero => intro i j h1 h2; omega
  | succ k ih =>
    intro i j hij hjk hm hfirst
    have hjlen := tierMatches_lt hm
    have h0 : ths[i]? = some (ths.get ⟨i, by omega⟩) := List.getElem?_eq_getElem (by omega)
    have h1 : ths[i + 1]? = some (ths.get ⟨i + 1, by omega⟩) :=
      List.getElem?_eq_getElem (by omega)
    unfold convertLuminanceLoop
    rw [h0, h1]
    by_cases hc : tierCond l (ths.get ⟨i, by omega⟩) (ths.get ⟨i + 1, by omega⟩)
    · have hmi : tierMatches l ths i := (tierMatches_iff l ths i).2 ⟨_, _, h0, h1, hc⟩
      have hji : j = i := by
        by_contra hne
        exact hfirst i (le_refl i) (by omega) hmi
      subst hji
      simp only [hc, if_true]
      unfold colorAt
      rfl
    · have hji : i ≠ j := by
        rintro rfl
        obtain ⟨lo, hi, e0, e1, hcond⟩ := (tierMatches_iff l ths i).1 hm
        rw [h0] at e0; rw [h1] at e1
        cases e0; cases e1
        exact hc hcond
      simp only [hc, if_false]
      apply ih (i + 1) j (by omega) (by omega) hm
      intro j2 hj2 hj2j
      exact hfirst j2 (by omega) hj2j

/-- At the first matching tier `i`, `convertLuminance` evaluates `converted[i]`. -/
lemma convertLuminance_of_first {l : Float64} {ths : List Float64} (cols : List RGBA) {i : ℕ}
    (hm : tierMatches l ths i) (hfirst : ∀ j, j < i → ¬ tierMatches l ths j) :
    convertLuminance l ths cols = colorAt cols i := by
  have hlen := tierMatches_lt hm
  unfold convertLuminance
  exact loop_first_match l ths cols (ths.length - 1) 0 i (Nat.zero_le i) (by omega) hm
    (fun j _ hj => hfirst j hj)

/-- Some tier matches exactly when there is a first matching tier. -/
lemma exists_first_match {l : Float64} {ths : List Float64}
    (h : ∃ i, tierMatches l ths i) :
    ∃ i, tierMatches l ths i ∧ ∀ j, j < i → ¬ tierMatches l ths j := by
  classical
  exact ⟨Nat.find h, Nat.find_spec h, fun j hj => Nat.find_min h hj⟩

/-- The fatal branch is reached exactly when no tier matches. -/
lemma convertLuminance_fatal_iff (l : Float64) (ths : List Float64) (cols : List RGBA) :
    convertLuminance l ths cols = Except.error Failure.luminanceOverThresholds ↔
      ¬ ∃ i, tierMatches l ths i := by
  constructor
  · intro hf hex
    obtain ⟨i, hm, hfirst⟩ := exists_first_match hex
    rw [convertLuminance_of_first cols hm hfirst] at hf
    exact colorAt_ne_fatal cols i hf
  · intro hno
    unfold convertLuminance
    apply loop_no_match
    · by_cases h : ths.length - 1 = 0
      · left; exact h
      · right; omega
    · intro j _ _ hm
      exact hno ⟨j, hm⟩



/-! ## Lemmas on rounding -/

lemma roundNearestEven_le {m : ℚ} {N : ℤ} (h : m ≤ N) : roundNearestEven m ≤ N := by
  have hf : ⌊m⌋ ≤ N := by
    have := Int.floor_le m
    exact_mod_cast le_trans this h
  have hup : 0 < m - ⌊m⌋ → ⌊m⌋ + 1 ≤ N := by
    intro hpos
    have : (⌊m⌋ : ℚ) < N := by linarith
    have : ⌊m⌋ < N := by exact_mod_cast this
    omega
  unfold roundNearestEven
  simp only
  split_ifs with h1 h2 h3
  · exact hf
  · exact hup (by linarith)
  · exact hf
  · exact hup (by linarith)

lemma le_roundNearestEven {m : ℚ} {N : ℤ} (h : (N : ℚ) ≤ m) : N ≤ roundNearestEven m := by
  have hf : N ≤ ⌊m⌋ := Int.le_floor.2 h
  unfold roundNearestEven
  simp only
  split_ifs <;> omega

lemma roundNearestEven_eq {m : ℚ} {n : ℤ} (h1 : (n : ℚ) - 1 / 2 < m) (h2 : m < n + 1 / 2) :
    roundNearestEven m = n := by
  have hfl := Int.floor_le m
  have hlf := Int.lt_floor_add_one m
  have hcases : ⌊m⌋ = n ∨ ⌊m⌋ = n - 1 := by
    have a : (⌊m⌋ : ℚ) < n + 1 := by linarith
    have b : (n : ℚ) - 2 < ⌊m⌋ := by linarith
    have a2 : ⌊m⌋ < n + 1 := by exact_mod_cast a
    have b2 : n - 2 < ⌊m⌋ := by exact_mod_cast b
    omega
  unfold roundNearestEven
  simp only
  rcases hcases with hc | hc
  · have : m - ⌊m⌋ < 1 / 2 := by rw [hc]; linarith
    rw [if_pos this, hc]
  · have hgt : 1 / 2 < m - ⌊m⌋ := by rw [hc]; push_cast; linarith
    rw [if_neg (by linarith), if_pos hgt, hc]
    ring

lemma two_zpow_pos (p : ℤ) : (0 : ℚ) < 2 ^ p := zpow_pos (by norm_num) p

lemma log_le_of_abs_lt {x : ℚ} {e : ℤ} (he : 0 ≤ e) (h : |x| < 2 ^ (e + 1)) :
    Int.log 2 |x| ≤ e := by
  rcases (abs_nonneg x).eq_or_lt with h0 | hpos
  · rw [← h0, Int.log_zero_right]; exact he
  · have := (Int.lt_zpow_iff_log_lt (b := 2) (by norm_num) hpos (x := e + 1)).1
      (by simpa using h)
    omega

lemma ulpExp_le {x : ℚ} {e : ℤ} (he : 0 ≤ e) (h : |x| < 2 ^ (e + 1)) :
    ulpExp x ≤ e - 52 := by
  have := log_le_of_abs_lt he h
  unfold ulpExp
  have : max (Int.log 2 |x|) (-1022) ≤ e := max_le this (by omega)
  omega

/-- A multiple of `2 ^ p0` is an integer multiple of every finer unit `2 ^ p`. -/
lemma grid_div {k p0 p : ℤ} (hp : p ≤ p0) :
    ((k : ℚ) * 2 ^ p0) / 2 ^ p = ((k * 2 ^ (p0 - p).toNat : ℤ) : ℚ) := by
  have h2 : (2 : ℚ) ≠ 0 := by norm_num
  have hsplit : (2 : ℚ) ^ p0 = 2 ^ ((p0 - p).toNat : ℤ) * 2 ^ p := by
    rw [← zpow_add₀ h2]
    congr 1
    rw [Int.toNat_of_nonneg (by omega)]
    ring
  rw [hsplit]
  push_cast
  rw [zpow_natCast]
  field_simp
  ring

lemma round64_le {x B : ℚ} (k p0 : ℤ) (hB : B = k * 2 ^ p0) (hp : ulpExp x ≤ p0)
    (hx : x ≤ B) : round64 x ≤ B := by
  have hpos := two_zpow_pos (ulpExp x)
  have hdiv : x / 2 ^ ulpExp x ≤ ((k * 2 ^ (p0 - ulpExp x).toNat : ℤ) : ℚ) := by
    rw [← grid_div hp, ← hB]
    exact div_le_div_of_nonneg_right hx hpos.le
  have hr := roundNearestEven_le hdiv
  have hr2 : (roundNearestEven (x / 2 ^ ulpExp x) : ℚ) ≤
      ((k * 2 ^ (p0 - ulpExp x).toNat : ℤ) : ℚ) := by exact_mod_cast hr
  unfold round64
  calc (roundNearestEven (x / 2 ^ ulpExp x) : ℚ) * 2 ^ ulpExp x
      ≤ ((k * 2 ^ (p0 - ulpExp x).toNat : ℤ) : ℚ) * 2 ^ ulpExp x :=
        mul_le_mul_of_nonneg_right hr2 hpos.le
    _ = B := by rw [← grid_div hp, ← hB]; field_simp

lemma le_round64 {x B : ℚ} (k p0 : ℤ) (hB : B = k * 2 ^ p0) (hp : ulpExp x ≤ p0)
    (hx : B ≤ x) : B ≤ round64 x := by
  have hpos := two_zpow_pos (ulpExp x)
  have hdiv : ((k * 2 ^ (p0 - ulpExp x).toNat : ℤ) : ℚ) ≤ x / 2 ^ ulpExp x := by
    rw [← grid_div hp, ← hB]
    exact div_le_div_of_nonneg_right hx hpos.le
  have hr := le_roundNearestEven hdiv
  have hr2 : ((k * 2 ^ (p0 - ulpExp x).toNat : ℤ) : ℚ) ≤
      (roundNearestEven (x / 2 ^ ulpExp x) : ℚ) := by exact_mod_cast hr
  unfold round64
  calc B = ((k * 2 ^ (p0 - ulpExp x).toNat : ℤ) : ℚ) * 2 ^ ulpExp x := by
        rw [← grid_div hp, ← hB]; field_simp
    _ ≤ (roundNearestEven (x / 2 ^ ulpExp x) : ℚ) * 2 ^ ulpExp x :=
        mul_le_mul_of_nonneg_right hr2 hpos.le

lemma round64_nonneg {x : ℚ} (hx : 0 ≤ x) : 0 ≤ round64 x :=
  le_round64 0 (ulpExp x) (by simp) (le_refl _) hx

/-- A value on the grid of its own unit in the last place is a float64: rounding
leaves it as it is. -/
lemma round64_eq_self {x : ℚ} (k p0 : ℤ) (hB : x = k * 2 ^ p0) (hp : ulpExp x ≤ p0) :
    round64 x = x :=
  le_antisymm (round64_le k p0 hB hp (le_refl x)) (le_round64 k p0 hB hp (le_refl x))

lemma ulpExp_eq {x : ℚ} (e : ℤ) (he : -1022 ≤ e) (h1 : 2 ^ e ≤ |x|) (h2 : |x| < 2 ^ (e + 1)) :
    ulpExp x = e - 52 := by
  have hpos : 0 < |x| := lt_of_lt_of_le (two_zpow_pos e) h1
  have hlo : e ≤ Int.log 2 |x| :=
    (Int.zpow_le_iff_le_log (b := 2) (by norm_num) hpos).1 (by simpa using h1)
  have hhi := (Int.lt_zpow_iff_log_lt (b := 2) (by norm_num) hpos (x := e + 1)).1
      (by simpa using h2)
  unfold ulpExp
  have : Int.log 2 |x| = e := by omega
  rw [this, max_eq_left he]

/-- Evaluation of `round64` at a value in the binade `[2 ^ e, 2 ^ (e+1))`: the result
is `n * 2 ^ (e-52)` for the integer `n` within a half of the scaled value. -/
lemma round64_eq {x : ℚ} (e n : ℤ) (he : -1022 ≤ e) (h1 : 2 ^ e ≤ |x|)
    (h2 : |x| < 2 ^ (e + 1)) (h3 : (n : ℚ) - 1 / 2 < x / 2 ^ (e - 52))
    (h4 : x / 2 ^ (e - 52) < n + 1 / 2) : round64 x = n * 2 ^ (e - 52) := by
  unfold round64
  rw [ulpExp_eq e he h1 h2, roundNearestEven_eq h3 h4]

lemma roundNearestEven_tie {m : ℚ} {n : ℤ} (hn : n % 2 = 0)
    (h : m = n + 1 / 2 ∨ m = n - 1 / 2) : roundNearestEven m = n := by
  unfold roundNearestEven
  simp only
  rcases h with h | h
  · have hf : ⌊m⌋ = n := by
      rw [Int.floor_eq_iff]; constructor <;> rw [h] <;> linarith
    have hr : m - ⌊m⌋ = 1 / 2 := by rw [hf, h]; ring
    rw [hr, if_neg (lt_irrefl _), if_neg (lt_irrefl _), hf, if_pos hn]
  · have hf : ⌊m⌋ = n - 1 := by
      rw [Int.floor_eq_iff]; constructor <;> rw [h] <;> push_cast <;> linarith
    have hr : m - ⌊m⌋ = 1 / 2 := by rw [hf, h]; push_cast; ring
    have hodd : ¬ (n - 1) % 2 = 0 := by omega
    rw [hr, if_neg (lt_irrefl _), if_neg (lt_irrefl _), hf, if_neg hodd]
    ring

/-- Evaluation of `round64` at a tie: the result is the even neighbour. -/
lemma round64_eq_tie {x : ℚ} (e n : ℤ) (he : -1022 ≤ e) (h1 : 2 ^ e ≤ |x|)
    (h2 : |x| < 2 ^ (e + 1)) (hn : n % 2 = 0)
    (h3 : x / 2 ^ (e - 52) = n + 1 / 2 ∨ x / 2 ^ (e - 52) = n - 1 / 2) :
    round64 x = n * 2 ^ (e - 52) := by
  unfold round64
  rw [ulpExp_eq e he h1 h2, roundNearestEven_tie hn h3]

/-! ## Lemmas on luminance -/

/-- Rounding a value in `[0, k/65536]`, with `k/65536` below 128, stays in that range. -/
lemma round64_le_grid {x : ℚ} (k : ℤ) (h0 : 0 ≤ x) (hx : x ≤ (k : ℚ) / 65536)
    (hk : (k : ℚ) / 65536 < 128) : round64 x ≤ (k : ℚ) / 65536 := by
  apply round64_le k (-16) (by norm_num [zpow_neg]; ring)
  · have : ulpExp x ≤ 6 - 52 := by
      apply ulpExp_le (by norm_num)
      rw [abs_of_nonneg h0]
      norm_num
      linarith
    omega
  · exact hx

lemma channelPercent_eq {r : ℕ} (hr : r ≤ 65535) :
    channelPercent r = (r : ℚ) * 100 / 65536 := by
  have hrq : (r : ℚ) ≤ 65535 := by exact_mod_cast hr
  have hr0 : (0 : ℚ) ≤ r := Nat.cast_nonneg r
  have s1 : round64 (r : ℚ) = r := by
    apply round64_eq_self (r : ℤ) 0 (by simp)
    have : ulpExp (r : ℚ) ≤ 16 - 52 := by
      apply ulpExp_le (by norm_num)
      rw [abs_of_nonneg hr0]
      norm_num
      linarith
    omega
  have s2 : round64 ((r : ℚ) / 65536) = (r : ℚ) / 65536 := by
    apply round64_eq_self (r : ℤ) (-16) (by norm_num [zpow_neg]; ring)
    have : ulpExp ((r : ℚ) / 65536) ≤ 0 - 52 := by
      apply ulpExp_le (by norm_num)
      rw [abs_of_nonneg (by positivity)]
      norm_num
      linarith
    omega
  have s3 : round64 ((r : ℚ) / 65536 * 100) = (r : ℚ) / 65536 * 100 := by
    apply round64_eq_self ((r : ℤ) * 100) (-16) (by push_cast; norm_num [zpow_neg]; ring)
    have : ulpExp ((r : ℚ) / 65536 * 100) ≤ 6 - 52 := by
      apply ulpExp_le (by norm_num)
      rw [abs_of_nonneg (by positivity)]
      norm_num
      linarith
    omega
  unfold channelPercent fmul fdiv
  rw [s1, s2, s3]
  ring

lemma const2126_eq : round64 (2126 / 10000) = 1914930561557935 / 9007199254740992 := by
  rw [round64_eq (-3) 7659722246231740 (by norm_num) (by norm_num [abs_of_pos])
    (by norm_num [abs_of_pos]) (by norm_num) (by norm_num)]
  norm_num

lemma const7152_eq : round64 (7152 / 10000) = 6441948906990757 / 9007199254740992 := by
  rw [round64_eq (-1) 6441948906990757 (by norm_num) (by norm_num [abs_of_pos])
    (by norm_num [abs_of_pos]) (by norm_num) (by norm_num)]
  norm_num

lemma const722_eq : round64 (722 / 10000) = 5202558289538397 / 72057594037927936 := by
  rw [round64_eq (-4) 5202558289538397 (by norm_num) (by norm_num [abs_of_pos])
    (by norm_num [abs_of_pos]) (by norm_num) (by norm_num)]
  norm_num

/-- The luminance of a pixel with 16-bit samples is a finite value between 0 and
`6553502/65536`, which is below 100. -/
lemma luminance_bounds (c : Color) (hr : c.r ≤ 65535) (hg : c.g ≤ 65535) (hb : c.b ≤ 65535) :
    ∃ q : ℚ, luminance c = Float64.fin q ∧ 0 ≤ q ∧ q ≤ 6553502 / 65536 := by
  have hrq : (c.r : ℚ) ≤ 65535 := by exact_mod_cast hr
  have hgq : (c.g : ℚ) ≤ 65535 := by exact_mod_cast hg
  have hbq : (c.b : ℚ) ≤ 65535 := by exact_mod_cast hb
  have hr0 : (0 : ℚ) ≤ c.r := Nat.cast_nonneg _
  have hg0 : (0 : ℚ) ≤ c.g := Nat.cast_nonneg _
  have hb0 : (0 : ℚ) ≤ c.b := Nat.cast_nonneg _
  refine ⟨_, rfl, ?_, ?_⟩
  · unfold fadd fmul
    apply round64_nonneg
    apply add_nonneg
    · apply round64_nonneg
      apply add_nonneg <;> apply round64_nonneg <;> apply mul_nonneg <;>
        first
          | (rw [channelPercent_eq hr]; positivity)
          | (rw [channelPercent_eq hg]; positivity)
          | (rw [const2126_eq]; norm_num)
          | (rw [const7152_eq]; norm_num)
    · apply round64_nonneg
      apply mul_nonneg
      · rw [channelPercent_eq hb]; positivity
      · rw [const722_eq]; norm_num
  · rw [channelPercent_eq hr, channelPercent_eq hg, channelPercent_eq hb,
      const2126_eq, const7152_eq, const722_eq]
    unfold fadd fmul
    have p1lo : 0 ≤ round64 ((c.r : ℚ) * 100 / 65536 * (1914930561557935 / 9007199254740992)) :=
      round64_nonneg (by positivity)
    have p2lo : 0 ≤ round64 ((c.g : ℚ) * 100 / 65536 * (6441948906990757 / 9007199254740992)) :=
      round64_nonneg (by positivity)
    have p3lo : 0 ≤ round64 ((c.b : ℚ) * 100 / 65536 * (5202558289538397 / 72057594037927936)) :=
      round64_nonneg (by positivity)
    have p1 : round64 ((c.r : ℚ) * 100 / 65536 * (1914930561557935 / 9007199254740992)) ≤
        ((1393275 : ℤ) : ℚ) / 65536 :=
      round64_le_grid 1393275 (by positivity) (by push_cast; linarith) (by norm_num)
    have p2 : round64 ((c.g : ℚ) * 100 / 65536 * (6441948906990757 / 9007199254740992)) ≤
        ((4687064 : ℤ) : ℚ) / 65536 :=
      round64_le_grid 4687064 (by positivity) (by push_cast; linarith) (by norm_num)
    have p3 : round64 ((c.b : ℚ) * 100 / 65536 * (5202558289538397 / 72057594037927936)) ≤
        ((473163 : ℤ) : ℚ) / 65536 :=
      round64_le_grid 473163 (by positivity) (by push_cast; linarith) (by norm_num)
    have s1lo := round64_nonneg (add_nonneg p1lo p2lo)
    have s1 := round64_le_grid 6080339 (add_nonneg p1lo p2lo)
      (by push_cast at p1 p2 ⊢; linarith) (by norm_num)
    have s2 := round64_le_grid 6553502 (add_nonneg s1lo p3lo)
      (by push_cast at p3 s1 ⊢; linarith) (by norm_num)
    push_cast at s2
    exact s2

/-- The luminance of a pixel with every colour sample at 65535. -/
lemma luminance_white (a : ℕ) :
    luminance { r := 65535, g := 65535, b := 65535, a := a } =
      Float64.fin (7036767043583999 / 70368744177664) := by
  have hc : channelPercent 65535 = 1638375 / 16384 := by
    rw [channelPercent_eq (le_refl _)]; norm_num
  have p1 : round64 (1638375 / 16384 * (1914930561557935 / 9007199254740992)) =
      2992033346931917 / 140737488355328 := by
    rw [round64_eq 4 5984066693863834 (by norm_num) (by norm_num [abs_of_pos])
      (by norm_num [abs_of_pos]) (by norm_num) (by norm_num)]
    norm_num
  have p2 : round64 (1638375 / 16384 * (6441948906990757 / 9007199254740992)) =
      1258173947392819 / 17592186044416 := by
    rw [round64_eq 6 5032695789571276 (by norm_num) (by norm_num [abs_of_pos])
      (by norm_num [abs_of_pos]) (by norm_num) (by norm_num)]
    norm_num
  have p3 : round64 (1638375 / 16384 * (5202558289538397 / 72057594037927936)) =
      8128873288748237 / 1125899906842624 := by
    rw [round64_eq 2 8128873288748237 (by norm_num) (by norm_num [abs_of_pos])
      (by norm_num [abs_of_pos]) (by norm_num) (by norm_num)]
    norm_num
  have s1 : round64 (2992033346931917 / 140737488355328 + 1258173947392819 / 17592186044416) =
      3264356231518617 / 35184372088832 := by
    rw [round64_eq_tie 6 6528712463037234 (by norm_num) (by norm_num [abs_of_pos])
      (by norm_num [abs_of_pos]) (by norm_num) (by left; norm_num)]
    norm_num
  have s2 : round64 (3264356231518617 / 35184372088832 + 8128873288748237 / 1125899906842624) =
      7036767043583999 / 70368744177664 := by
    rw [round64_eq 6 7036767043583999 (by norm_num) (by norm_num [abs_of_pos])
      (by norm_num [abs_of_pos]) (by norm_num) (by norm_num)]
    norm_num
  unfold luminance
  simp only [hc, const2126_eq, const7152_eq, const722_eq]
  unfold fadd fmul
  rw [p1, p2, p3, s1, s2]

lemma round64_zero : round64 0 = 0 :=
  round64_eq_self 0 0 (by simp) (by unfold ulpExp; simp)

/-- The luminance of black is zero. -/
lemma luminance_grey_black : luminance (grey 0) = Float64.fin 0 := by
  have hc : channelPercent 0 = 0 := by
    rw [channelPercent_eq (by norm_num)]; norm_num
  unfold luminance grey
  simp only [hc]
  unfold fadd fmul
  simp only [zero_mul, add_zero, round64_zero]

/-- The luminance of the dark grey of the sample image, about 30. -/
lemma luminance_grey_dark :
    luminance (grey 19661) = Float64.fin (491525 / 16384) := by
  have hc : channelPercent 19661 = 491525 / 16384 := by
    rw [channelPercent_eq (by norm_num)]; norm_num
  have p1 : round64 (491525 / 16384 * (1914930561557935 / 9007199254740992)) =
      7181062654646027 / 1125899906842624 := by
    rw [round64_eq (2) 7181062654646027 (by norm_num) (by norm_num [abs_of_pos])
      (by norm_num [abs_of_pos]) (by norm_num) (by norm_num)]
    norm_num
  have p2 : round64 (491525 / 16384 * (6441948906990757 / 9007199254740992)) =
      6039388535516037 / 281474976710656 := by
    rw [round64_eq (4) 6039388535516037 (by norm_num) (by norm_num [abs_of_pos])
      (by norm_num [abs_of_pos]) (by norm_num) (by norm_num)]
    norm_num
  have p3 : round64 (491525 / 16384 * (5202558289538397 / 72057594037927936)) =
      4877448011904451 / 2251799813685248 := by
    rw [round64_eq (1) 4877448011904451 (by norm_num) (by norm_num [abs_of_pos])
      (by norm_num [abs_of_pos]) (by norm_num) (by norm_num)]
    norm_num
  have s1 : round64 (7181062654646027 / 1125899906842624 + 6039388535516037 / 281474976710656) =
      979331774897193 / 35184372088832 := by
    rw [round64_eq (4) 7834654199177544 (by norm_num) (by norm_num [abs_of_pos])
      (by norm_num [abs_of_pos]) (by norm_num) (by norm_num)]
    norm_num
  have s2 : round64 (979331774897193 / 35184372088832 + 4877448011904451 / 2251799813685248) =
      491525 / 16384 := by
    rw [round64_eq (4) 8444335200665600 (by norm_num) (by norm_num [abs_of_pos])
      (by norm_num [abs_of_pos]) (by norm_num) (by norm_num)]
    norm_num
  unfold luminance grey
  simp only [hc, const2126_eq, const7152_eq, const722_eq]
  unfold fadd fmul
  rw [p1, p2, p3, s1, s2]

/-- The luminance of the light grey of the sample image, about 60. -/
lemma luminance_grey_light :
    luminance (grey 39322) = Float64.fin (491525 / 8192) := by
  have hc : channelPercent 39322 = 491525 / 8192 := by
    rw [channelPercent_eq (by norm_num)]; norm_num
  have p1 : round64 (491525 / 8192 * (1914930561557935 / 9007199254740992)) =
      7181062654646027 / 562949953421312 := by
    rw [round64_eq (3) 7181062654646027 (by norm_num) (by norm_num [abs_of_pos])
      (by norm_num [abs_of_pos]) (by norm_num) (by norm_num)]
    norm_num
  have p2 : round64 (491525 / 8192 * (6441948906990757 / 9007199254740992)) =
      6039388535516037 / 140737488355328 := by
    rw [round64_eq (5) 6039388535516037 (by norm_num) (by norm_num [abs_of_pos])
      (by norm_num [abs_of_pos]) (by norm_num) (by norm_num)]
    norm_num
  have p3 : round64 (491525 / 8192 * (5202558289538397 / 72057594037927936)) =
      4877448011904451 / 1125899906842624 := by
    rw [round64_eq (2) 4877448011904451 (by norm_num) (by norm_num [abs_of_pos])
      (by norm_num [abs_of_pos]) (by norm_num) (by norm_num)]
    norm_num
  have s1 : round64 (7181062654646027 / 562949953421312 + 6039388535516037 / 140737488355328) =
      979331774897193 / 17592186044416 := by
    rw [round64_eq (5) 7834654199177544 (by norm_num) (by norm_num [abs_of_pos])
      (by norm_num [abs_of_pos]) (by norm_num) (by norm_num)]
    norm_num
  have s2 : round64 (979331774897193 / 17592186044416 + 4877448011904451 / 1125899906842624) =
      491525 / 8192 := by
    rw [round64_eq (5) 8444335200665600 (by norm_num) (by norm_num [abs_of_pos])
      (by norm_num [abs_of_pos]) (by norm_num) (by norm_num)]
    norm_num
  unfold luminance grey
  simp only [hc, const2126_eq, const7152_eq, const722_eq]
  unfold fadd fmul
  rw [p1, p2, p3, s1, s2]

/-! ## Lemmas on float64 comparison -/

lemma Float64.le_le {a b c : Float64} (h1 : Float64.le a b) (h2 : Float64.le b c) :
    Float64.le a c := by
  cases a <;> cases b <;> cases c <;> simp_all [Float64.le]
  exact le_trans h1 h2

lemma Float64.le_not_lt {a b : Float64} (h : Float64.le a b) : ¬ Float64.lt b a := by
  cases a <;> cases b <;> simp_all [Float64.le, Float64.lt]

lemma Float64.lt_of_not_le_fin {q : ℚ} {b : Float64} (hb : b ≠ Float64.nan)
    (h : ¬ Float64.le (Float64.fin q) b) : Float64.lt b (Float64.fin q) := by
  cases b <;> simp_all [Float64.le, Float64.lt]

lemma Float64.ne_nan_of_le {a b : Float64} (h : Float64.le a b) : b ≠ Float64.nan := by
  cases a <;> cases b <;> simp_all [Float64.le]

lemma Float64.le_self_of_le {a b : Float64} (h : Float64.le a b) : Float64.le b b := by
  cases a <;> cases b <;> simp_all [Float64.le]

lemma Float64.eq_zero_iff (l : Float64) : Float64.eq l (Float64.fin 0) ↔ l = Float64.fin 0 := by
  cases l <;> simp [Float64.eq]

lemma Float64.isTrans_le : IsTrans Float64 Float64.le := ⟨fun _ _ _ => Float64.le_le⟩

lemma inPercentRange_iff (l : Float64) :
    inPercentRange l ↔ ∃ q : ℚ, l = Float64.fin q ∧ 0 ≤ q ∧ q ≤ 100 := by
  unfold inPercentRange
  cases l <;> simp [Float64.le]

/-! ## Tier coverage and disjointness -/

/-- Between a first threshold below `l` and a last threshold not below `l` there is a
tier whose bounds enclose `l`, whatever the order of the thresholds in between. -/
lemma exists_tier_between (q : ℚ) :
    ∀ (rest : List Float64) (a z : Float64), Float64.lt a (Float64.fin q) →
      (a :: rest).getLast? = some z → Float64.le (Float64.fin q) z →
      (∀ t ∈ rest, t ≠ Float64.nan) →
      ∃ i lo hi, (a :: rest)[i]? = some lo ∧ (a :: rest)[i + 1]? = some hi ∧
        Float64.lt lo (Float64.fin q) ∧ Float64.le (Float64.fin q) hi := by
  intro rest
  induction rest with
  | nil =>
    intro a z ha hz hqz _
    simp at hz
    subst hz
    exact absurd ha (Float64.le_not_lt hqz)
  | cons b rest ih =>
    intro a z ha hz hqz hnan
    by_cases hb : Float64.le (Float64.fin q) b
    · exact ⟨0, a, b, by simp, by simp, ha, hb⟩
    · have hbl := Float64.lt_of_not_le_fin (hnan b (by simp)) hb
      rw [List.getLast?_cons_cons] at hz
      obtain ⟨i, lo, hi, e1, e2, h1, h2⟩ :=
        ih b z hbl hz hqz (fun t ht => hnan t (by simp [ht]))
      exact ⟨i + 1, lo, hi, by simpa using e1, by simpa using e2, h1, h2⟩

/-- In a sorted threshold list, a value at most the upper bound of tier `i` is not
above the lower bound of a later tier `j`. -/
lemma tier_disjoint {ths : List Float64} (hs : sortedAscending ths) {i j : ℕ} (hij : i < j)
    {l hi lo : Float64} (e1 : ths[i + 1]? = some hi) (e2 : ths[j]? = some lo)
    (h1 : Float64.le l hi) (h2 : Float64.lt lo l) : False := by
  obtain ⟨hi1, rfl⟩ := List.getElem?_eq_some.1 e1
  obtain ⟨hj1, rfl⟩ := List.getElem?_eq_some.1 e2
  haveI := Float64.isTrans_le
  rcases Nat.lt_or_ge (i + 1) j with hlt | hge
  · have hp := (List.chain'_iff_pairwise.1 hs)
    have := (List.pairwise_iff_getElem.1 hp) (i + 1) j hi1 hj1 hlt
    exact Float64.le_not_lt (Float64.le_le h1 this) h2
  · have hj : j = i + 1 := by omega
    subst hj
    exact Float64.le_not_lt h1 h2

/-- In a sorted threshold list every threshold after the first is not NaN. -/
lemma sorted_tail_ne_nan :
    ∀ (rest : List Float64) (a : Float64), sortedAscending (a :: rest) →
      ∀ t ∈ rest, t ≠ Float64.nan := by
  intro rest
  induction rest with
  | nil => intro a _ t ht; simp at ht
  | cons b rest ih =>
    intro a hs t ht
    unfold sortedAscending at hs
    rw [List.chain'_cons] at hs
    rcases List.mem_cons.1 ht with rfl | ht2
    · exact Float64.ne_nan_of_le hs.1
    · exact ih b hs.2 t ht2

/-- In a sorted threshold list the first threshold is `<=` every later one. -/
lemma sorted_head_le {ths : List Float64} (hs : sortedAscending ths) {a t : Float64} {j : ℕ}
    (h0 : ths[0]? = some a) (hj : ths[j]? = some t) (hpos : 0 < j) : Float64.le a t := by
  obtain ⟨h01, rfl⟩ := List.getElem?_eq_some.1 h0
  obtain ⟨hj1, rfl⟩ := List.getElem?_eq_some.1 hj
  haveI := Float64.isTrans_le
  exact (List.pairwise_iff_getElem.1 (List.chain'_iff_pairwise.1 hs)) 0 j h01 hj1 hpos

lemma tierContains_iff (ths : List Float64) (i : ℕ) (l : Float64) :
    tierContains ths i l ↔
      ∃ lo hi, ths[i]? = some lo ∧ ths[i + 1]? = some hi ∧
        ((Float64.lt lo l ∧ Float64.le l hi) ∨ (Float64.eq l (Float64.fin 0) ∧ i = 0)) := by
  unfold tierContains
  split
  · next lo hi h1 h2 =>
    constructor
    · intro h; exact ⟨lo, hi, h1, h2, h⟩
    · rintro ⟨lo2, hi2, e1, e2, h⟩
      rw [h1] at e1; rw [h2] at e2
      cases e1; cases e2; exact h
  · next hno =>
    constructor
    · intro h; exact h.elim
    · rintro ⟨lo2, hi2, e1, e2, -⟩
      exact hno lo2 hi2 e1 e2

lemma lt_length_of_getElem? {α : Type} {xs : List α} {i : ℕ} {x : α} (h : xs[i]? = some x) :
    i < xs.length := (List.getElem?_eq_some.1 h).1

/-- A lookup that finds its first matching tier inside the colour list returns that
colour. -/
lemma convertLuminance_ok_of_first {l : Float64} {ths : List Float64} {cols : List RGBA} {i : ℕ}
    (hm : tierMatches l ths i) (hfirst : ∀ j, j < i → ¬ tierMatches l ths j)
    (hi : i < cols.length) :
    ∃ c, cols[i]? = some c ∧ convertLuminance l ths cols = Except.ok c :=
  ⟨cols.get ⟨i, hi⟩, List.getElem?_eq_getElem hi, by
    rw [convertLuminance_of_first cols hm hfirst, colorAt_of_lt hi]⟩

/-- Sorted thresholds from 0 to 100: every luminance in `[0, 100]` lies in exactly one
tier, and the lookup returns that tier's colour. -/
lemma sorted_table_unique_tier {ths : List Float64} {cols : List RGBA} {l : Float64}
    (hs : sortedAscending ths) (h0 : ths.head? = some (Float64.fin 0))
    (h100 : ths.getLast? = some (Float64.fin 100)) (hc : cols.length = ths.length)
    (hl : inPercentRange l) :
    ∃ i, i + 1 < ths.length ∧ tierContains ths i l ∧ (∀ j, tierContains ths j l → j = i) ∧
      ∃ c, cols[i]? = some c ∧ convertLuminance l ths cols = Except.ok c := by
  obtain ⟨q, rfl, hq0, hq100⟩ := (inPercentRange_iff l).1 hl
  cases ths with
  | nil => simp at h0
  | cons a rest =>
    simp only [List.head?_cons, Option.some.injEq] at h0
    subst h0
    by_cases hq : q = 0
    · subst hq
      cases rest with
      | nil =>
        simp at h100
      | cons b rest =>
        have e0 : (Float64.fin 0 :: b :: rest)[0]? = some (Float64.fin 0) := by simp
        have e1 : (Float64.fin 0 :: b :: rest)[0 + 1]? = some b := by simp
        have hm : tierMatches (Float64.fin 0) (Float64.fin 0 :: b :: rest) 0 :=
          (tierMatches_iff _ _ _).2 ⟨_, _, e0, e1, Or.inr (by simp [Float64.eq])⟩
        refine ⟨0, by simp, ?_, ?_, ?_⟩
        · exact (tierContains_iff _ _ _).2 ⟨_, _, e0, e1, Or.inr ⟨by simp [Float64.eq], rfl⟩⟩
        · intro j hj
          obtain ⟨lo, hi, f0, -, h | h⟩ := (tierContains_iff _ _ _).1 hj
          · rcases Nat.eq_zero_or_pos j with hj0 | hjpos
            · exact hj0
            · exact absurd h.1 (Float64.le_not_lt (sorted_head_le hs e0 f0 hjpos))
          · exact h.2
        · exact convertLuminance_ok_of_first hm (fun j hj => absurd hj (Nat.not_lt_zero j))
            (by rw [hc]; simp)
    · have hqpos : 0 < q := lt_of_le_of_ne hq0 (Ne.symm hq)
      have hne : ¬ Float64.eq (Float64.fin q) (Float64.fin 0) := by simpa [Float64.eq] using hq
      obtain ⟨i, lo, hi, e1, e2, h1, h2⟩ :=
        exists_tier_between q rest (Float64.fin 0) (Float64.fin 100)
          (by simpa [Float64.lt] using hqpos) h100 (by simpa [Float64.le] using hq100)
          (sorted_tail_ne_nan rest _ hs)
      have hilen := lt_length_of_getElem? e2
      have hm : tierMatches (Float64.fin q) (Float64.fin 0 :: rest) i :=
        (tierMatches_iff _ _ _).2 ⟨_, _, e1, e2, Or.inl ⟨h1, h2⟩⟩
      refine ⟨i, hilen, ?_, ?_, ?_⟩
      · exact (tierContains_iff _ _ _).2 ⟨_, _, e1, e2, Or.inl ⟨h1, h2⟩⟩
      · intro j hj
        obtain ⟨lo2, hi2, f1, f2, h | h⟩ := (tierContains_iff _ _ _).1 hj
        · rcases Nat.lt_trichotomy j i with hlt | heq | hgt
          · exact (tier_disjoint hs hlt f2 e1 h.2 h1).elim
          · exact heq
          · exact (tier_disjoint hs hgt e2 f1 h2 h.1).elim
        · exact absurd h.1 hne
      · apply convertLuminance_ok_of_first hm _ (by omega)
        intro j hj hmj
        obtain ⟨lo2, hi2, f1, f2, h | h⟩ := (tierMatches_iff _ _ _).1 hmj
        · exact tier_disjoint hs hj f2 e1 h.2 h1
        · exact hne h

/-- A threshold list ending in the sentinel 100 covers every luminance in `[0, 100]`
that is zero or above the first threshold. -/
lemma sentinel_covers {cfg : List Float64} (hin : ∀ t ∈ cfg, inPercentRange t)
    {l : Float64} (hl : inPercentRange l)
    (hfirst : Float64.eq l (Float64.fin 0) ∨ ∃ t0, cfg.head? = some t0 ∧ Float64.lt t0 l)
    (hne : cfg ≠ []) :
    ∃ i, tierMatches l (cfg ++ [Float64.fin 100]) i := by
  obtain ⟨q, rfl, hq0, hq100⟩ := (inPercentRange_iff l).1 hl
  cases cfg with
  | nil => exact absurd rfl hne
  | cons a rest =>
    rcases hfirst with hz | ⟨t0, ht0, hlt⟩
    · refine ⟨0, (tierMatches_iff _ _ _).2 ?_⟩
      cases rest with
      | nil => exact ⟨a, Float64.fin 100, by simp, by simp, Or.inr hz⟩
      | cons b rest => exact ⟨a, b, by simp, by simp, Or.inr hz⟩
    · simp only [List.head?_cons, Option.some.injEq] at ht0
      subst ht0
      have hnan : ∀ t ∈ rest ++ [Float64.fin 100], t ≠ Float64.nan := by
        intro t ht
        rcases List.mem_append.1 ht with h | h
        · exact Float64.ne_nan_of_le (hin t (by simp [h])).1
        · simp at h; subst h; simp
      obtain ⟨i, lo, hi, e1, e2, h1, h2⟩ :=
        exists_tier_between q (rest ++ [Float64.fin 100]) a (Float64.fin 100) hlt
          (by rw [← List.cons_append, List.getLast?_concat])
          (by simpa [Float64.le] using hq100) hnan
      exact ⟨i, (tierMatches_iff _ _ _).2 ⟨lo, hi, e1, e2, Or.inl ⟨h1, h2⟩⟩⟩

/-- In a sorted table with thresholds in `[0, 100]`, the upper bound of a non-empty
tier `i` is looked up to `colors[i]`. -/
lemma upper_bound_lookup {ths : List Float64} {cols : List RGBA}
    (hs : sortedAscending ths) (hin : ∀ t ∈ ths, inPercentRange t)
    (hc : cols.length = ths.length) {i : ℕ} {lo hi : Float64}
    (e1 : ths[i]? = some lo) (e2 : ths[i + 1]? = some hi) (hlt : Float64.lt lo hi) :
    ∃ c, cols[i]? = some c ∧ convertLuminance hi ths cols = Except.ok c := by
  have hilen := lt_length_of_getElem? e2
  have hlo := hin lo (List.getElem?_mem e1)
  have hhi := hin hi (List.getElem?_mem e2)
  have hne : ¬ Float64.eq hi (Float64.fin 0) := by
    intro h
    rw [Float64.eq_zero_iff] at h
    subst h
    exact Float64.le_not_lt hlo.1 hlt
  have hm : tierMatches hi ths i :=
    (tierMatches_iff _ _ _).2 ⟨lo, hi, e1, e2, Or.inl ⟨hlt, Float64.le_self_of_le hhi.1⟩⟩
  apply convertLuminance_ok_of_first hm _ (by omega)
  intro j hj hmj
  obtain ⟨lo2, hi2, f1, f2, h | h⟩ := (tierMatches_iff _ _ _).1 hmj
  · exact tier_disjoint hs hj f2 e1 h.2 hlt
  · exact hne h

/-! ## Lemmas on `convertImage` -/

/-- The inner loop succeeds when every lookup of the row does; it writes the looked-up
colours on the row and leaves every other pixel as it was. -/
lemma convertRow_ok (img : Image) (ths : List Float64) (cols : List RGBA) (y : ℤ) :
    ∀ (k : ℕ) (x : ℤ) (conv : RGBAImage),
      conv.rect.minX ≤ x → x + k ≤ conv.rect.maxX → conv.rect.minY ≤ y → y < conv.rect.maxY →
      (∀ x2, x ≤ x2 → x2 < x + k →
        ∃ c, convertLuminance (luminance (img.At x2 y)) ths cols = Except.ok c) →
      ∃ out, convertRow img ths cols y k x conv = Except.ok out ∧ out.rect = conv.rect ∧
        (∀ x2, x ≤ x2 → x2 < x + k →
          convertLuminance (luminance (img.At x2 y)) ths cols = Except.ok (out.pix x2 y)) ∧
        (∀ x2 y2, ¬ (y2 = y ∧ x ≤ x2 ∧ x2 < x + k) → out.pix x2 y2 = conv.pix x2 y2) := by
  intro k
  induction k with
  | zero =>
    intro x conv _ _ _ _ _
    refine ⟨conv, rfl, rfl, ?_, ?_⟩
    · intro x2 h1 h2
      simp at h2
      omega
    · intro x2 y2 _
      rfl
  | succ k ih =>
    intro x conv hx1 hx2 hy1 hy2 hok
    obtain ⟨c, hc⟩ := hok x (le_refl x) (by push_cast; omega)
    have hin : conv.rect.contains x y := by
      unfold Rectangle.contains
      push_cast at hx2
      omega
    have hset : conv.Set x y c =
        { rect := conv.rect,
          pix := fun x2 y2 => if x2 = x ∧ y2 = y then c else conv.pix x2 y2 } := by
      unfold RGBAImage.Set
      rw [if_pos hin]
    obtain ⟨out, h1, h2, h3, h4⟩ := ih (x + 1) (conv.Set x y c)
      (by rw [hset]; simp only; omega) (by rw [hset]; simp only; push_cast at hx2; omega)
      (by rw [hset]; exact hy1) (by rw [hset]; exact hy2)
      (fun x2 a b => hok x2 (by omega) (by push_cast; omega))
    refine ⟨out, ?_, ?_, ?_, ?_⟩
    · rw [convertRow, hc]
      exact h1
    · rw [h2, hset]
    · intro x2 a b
      rcases eq_or_lt_of_le a with heq | hlt
      · subst heq
        rw [h4 x y (by omega), hset]
        simpa using hc
      · exact h3 x2 (by omega) (by push_cast at b; omega)
    · intro x2 y2 hnot
      rw [h4 x2 y2 (by push_cast at hnot; omega), hset]
      simp only
      rw [if_neg]
      push_cast at hnot
      omega

/-- The outer loop succeeds when every lookup of its rows does; it writes the
looked-up colours on those rows and leaves every other pixel as it was. -/
lemma convertRows_ok (img : Image) (ths : List Float64) (cols : List RGBA) :
    ∀ (k : ℕ) (y : ℤ) (conv : RGBAImage),
      conv.rect = img.bounds → img.bounds.minX ≤ img.bounds.maxX →
      img.bounds.minY ≤ y → y + k ≤ img.bounds.maxY →
      (∀ x2 y2, img.bounds.minX ≤ x2 → x2 < img.bounds.maxX → y ≤ y2 → y2 < y + k →
        ∃ c, convertLuminance (luminance (img.At x2 y2)) ths cols = Except.ok c) →
      ∃ out, convertRows img ths cols k y conv = Except.ok out ∧ out.rect = img.bounds ∧
        (∀ x2 y2, img.bounds.minX ≤ x2 → x2 < img.bounds.maxX → y ≤ y2 → y2 < y + k →
          convertLuminance (luminance (img.At x2 y2)) ths cols = Except.ok (out.pix x2 y2)) ∧
        (∀ x2 y2, ¬ (y ≤ y2 ∧ y2 < y + k) → out.pix x2 y2 = conv.pix x2 y2) := by
  intro k
  induction k with
  | zero =>
    intro y conv hr _ _ _ _
    refine ⟨conv, rfl, hr, ?_, ?_⟩
    · intro x2 y2 _ _ h1 h2
      simp at h2
      omega
    · intro x2 y2 _
      rfl
  | succ k ih =>
    intro y conv hr hw hy1 hy2 hok
    have hwidth : img.bounds.minX + ((img.bounds.maxX - img.bounds.minX).toNat : ℤ) =
        img.bounds.maxX := by
      rw [Int.toNat_of_nonneg (by omega)]
      omega
    obtain ⟨row, r1, r2, r3, r4⟩ := convertRow_ok img ths cols y
      (img.bounds.maxX - img.bounds.minX).toNat img.bounds.minX conv
      (by rw [hr]) (by rw [hr, hwidth]) (by rw [hr]; exact hy1)
      (by rw [hr]; push_cast at hy2; omega)
      (fun x2 a b => hok x2 y a (by rw [hwidth] at b; exact b) (le_refl y)
        (by push_cast; omega))
    obtain ⟨out, h1, h2, h3, h4⟩ := ih (y + 1) row (by rw [r2, hr]) hw (by omega)
      (by push_cast at hy2; omega)
      (fun x2 y2 a b c d => hok x2 y2 a b (by omega) (by push_cast; omega))
    refine ⟨out, ?_, h2, ?_, ?_⟩
    · rw [convertRows, r1]
      exact h1
    · intro x2 y2 a b c d
      rcases eq_or_lt_of_le c with heq | hlt
      · subst heq
        rw [h4 x2 y (by omega)]
        exact r3 x2 a (by rw [hwidth]; exact b)
      · exact h3 x2 y2 a b (by omega) (by push_cast at d; omega)
    · intro x2 y2 hnot
      rw [h4 x2 y2 (by push_cast at hnot; omega), r4 x2 y2 (by push_cast at hnot; omega)]

/-- When every lookup inside the bounds succeeds, `convertImage` returns an image
with the source's bounds whose pixels are the looked-up colours. -/
lemma convertImage_ok (img : Image) (ths : List Float64) (cols : List RGBA)
    (hw : img.bounds.minX ≤ img.bounds.maxX) (hh : img.bounds.minY ≤ img.bounds.maxY)
    (hok : ∀ x y, img.bounds.contains x y →
      ∃ c, convertLuminance (luminance (img.At x y)) ths cols = Except.ok c) :
    ∃ out, convertImage img ths cols = Except.ok out ∧ out.rect = img.bounds ∧
      ∀ x y, img.bounds.contains x y →
        convertLuminance (luminance (img.At x y)) ths cols = Except.ok (out.RGBAAt x y) := by
  have hheight : img.bounds.minY + ((img.bounds.maxY - img.bounds.minY).toNat : ℤ) =
      img.bounds.maxY := by
    rw [Int.toNat_of_nonneg (by omega)]
    omega
  obtain ⟨out, h1, h2, h3, -⟩ := convertRows_ok img ths cols
    (img.bounds.maxY - img.bounds.minY).toNat img.bounds.minY (newRGBA img.bounds)
    rfl hw (le_refl _) (by rw [hheight])
    (fun x2 y2 a b c d => hok x2 y2 ⟨a, b, c, by rw [hheight] at d; exact d⟩)
  refine ⟨out, h1, h2, ?_⟩
  intro x y hc
  have hc2 : out.rect.contains x y := by rw [h2]; exact hc
  unfold RGBAImage.RGBAAt
  rw [if_pos hc2]
  obtain ⟨a, b, c, d⟩ := hc
  exact h3 x y a b c (by rw [hheight]; exact d)

/-! ## Lemmas on `hexToColor` -/

lemma and_shiftRight (a b n : ℕ) : (a &&& b) >>> n = (a >>> n) &&& (b >>> n) := by
  apply Nat.eq_of_testBit_eq
  intro i
  simp

lemma hexToColor_eq (h : ℕ) :
    hexToColor h = { R := h / 65536 % 256, G := h / 256 % 256, B := h % 256, A := 0 } := by
  have hr : ((h &&& 0xFF0000) >>> 16) % 256 = h / 65536 % 256 := by
    rw [and_shiftRight, Nat.shiftRight_eq_div_pow]
    have : (0xFF0000 >>> 16 : ℕ) = 2 ^ 8 - 1 := by decide
    rw [this, Nat.and_pow_two_sub_one_eq_mod]
    norm_num
  have hg : ((h &&& 0x00FF00) >>> 8) % 256 = h / 256 % 256 := by
    rw [and_shiftRight, Nat.shiftRight_eq_div_pow]
    have : (0x00FF00 >>> 8 : ℕ) = 2 ^ 8 - 1 := by decide
    rw [this, Nat.and_pow_two_sub_one_eq_mod]
    norm_num
  have hb : (h &&& 0x0000FF) % 256 = h % 256 := by
    have : (0x0000FF : ℕ) = 2 ^ 8 - 1 := by decide
    rw [this, Nat.and_pow_two_sub_one_eq_mod]
    norm_num
  unfold hexToColor
  simp only [hr, hg, hb]

/-! ## Lemmas on table construction -/

lemma splitChars_ne_nil (sep : Char) : ∀ cs : List Char, splitChars sep cs ≠ [] := by
  intro cs
  cases cs with
  | nil => simp [splitChars]
  | cons c cs =>
    unfold splitChars
    split_ifs
    · simp
    · split <;> simp

lemma split_ne_nil (s : String) (sep : Char) : split s sep ≠ [] := by
  unfold split
  simpa using splitChars_ne_nil sep s.data

lemma parseThresholds_length (pf : String → Option Float64) :
    ∀ (ts : List String) (acc r : List Float64),
      parseThresholds pf ts acc = Except.ok r → r.length = acc.length + ts.length := by
  intro ts
  induction ts with
  | nil =>
    intro acc r h
    simp only [parseThresholds, Except.ok.injEq] at h
    subst h
    simp
  | cons t ts ih =>
    intro acc r h
    unfold parseThresholds at h
    split at h
    · cases h
    · split_ifs at h
      have := ih _ _ h
      simp at this ⊢
      omega

lemma parseColors_length (pu : String → Option ℕ) :
    ∀ (cs : List String) (acc r : List RGBA),
      parseColors pu cs acc = Except.ok r → r.length = acc.length + cs.length := by
  intro cs
  induction cs with
  | nil =>
    intro acc r h
    simp only [parseColors, Except.ok.injEq] at h
    subst h
    simp
  | cons c cs ih =>
    intro acc r h
    unfold parseColors at h
    split at h
    · cases h
    · split_ifs at h
      have := ih _ _ h
      simp at this ⊢
      omega

/-- A constructed table has at least two thresholds and at least two colours. -/
lemma buildTable_lengths {pf : String → Option Float64} {pu : String → Option ℕ}
    {t c : String} {ths : List Float64} {cols : List RGBA}
    (h : buildTable pf pu t c = Except.ok (ths, cols)) :
    2 ≤ ths.length ∧ 2 ≤ cols.length := by
  unfold buildTable at h
  split at h
  · cases h
  · next thresholds hT =>
    split at h
    · cases h
    · next convertedColors hC =>
      split at h
      · cases h
      · next last hlast =>
        simp only [Except.ok.injEq, Prod.mk.injEq] at h
        obtain ⟨rfl, rfl⟩ := h
        have h1 := parseThresholds_length pf _ _ _ hT
        have h2 := parseColors_length pu _ _ _ hC
        have h3 : 0 < (split t ',').length := List.length_pos.2 (split_ne_nil t ',')
        have h4 : 0 < (split c ',').length := List.length_pos.2 (split_ne_nil c ',')
        simp at h1 h2 ⊢
        omega

/-- Luminance zero is looked up to the first colour whenever there are two
thresholds and one colour. -/
lemma zero_lookup {ths : List Float64} {cols : List RGBA} (h2 : 2 ≤ ths.length)
    (hc : 1 ≤ cols.length) :
    ∃ c0, cols[0]? = some c0 ∧ convertLuminance (Float64.fin 0) ths cols = Except.ok c0 := by
  have hm : tierMatches (Float64.fin 0) ths 0 :=
    (tierMatches_iff _ _ _).2 ⟨ths.get ⟨0, by omega⟩, ths.get ⟨1, by omega⟩,
      List.getElem?_eq_getElem (by omega), List.getElem?_eq_getElem (by omega),
      Or.inr (by simp [Float64.eq])⟩
  exact convertLuminance_ok_of_first hm (fun j hj => absurd hj (Nat.not_lt_zero j)) (by omega)

/-- The table of the default flags. -/
lemma buildTable_default (pf : String → Option Float64) (pu : String → Option ℕ)
    (h0 : pf "0" = some (Float64.fin 0)) (h50 : pf "50" = some (Float64.fin 50))
    (hb : pu "000000" = some 0x000000) (hw : pu "FFFFFF" = some 0xFFFFFF) :
    buildTable pf pu "0,50" "000000,FFFFFF" =
      Except.ok ([Float64.fin 0, Float64.fin 50, Float64.fin 100],
        [{ R := 0, G := 0, B := 0, A := 0 }, { R := 255, G := 255, B := 255, A := 0 },
          { R := 255, G := 255, B := 255, A := 0 }]) := by
  have hs1 : split "0,50" ',' = ["0", "50"] := by decide
  have hs2 : split "000000,FFFFFF" ',' = ["000000", "FFFFFF"] := by decide
  have hc1 : hexToColor (0 % 2 ^ 32) = { R := 0, G := 0, B := 0, A := 0 } := by decide
  have hc2 : hexToColor (0xFFFFFF % 2 ^ 32) = { R := 255, G := 255, B := 255, A := 0 } := by
    decide
  have hT : parseThresholds pf ["0", "50"] [] = Except.ok [Float64.fin 0, Float64.fin 50] := by
    simp [parseThresholds, h0, h50, Float64.lt]
    norm_num
  have hC : parseColors pu ["000000", "FFFFFF"] [] =
      Except.ok [{ R := 0, G := 0, B := 0, A := 0 }, { R := 255, G := 255, B := 255, A := 0 }] := by
    simp only [parseColors, hb, hw, hc1, hc2]
    simp
  unfold buildTable
  rw [hs1, hs2, hT, hC]
  rfl

/-- Lookups in the default table: black up to 50, white above. -/
lemma default_lookup (l : Float64) (hl : inPercentRange l) :
    convertLuminance l [Float64.fin 0, Float64.fin 50, Float64.fin 100]
        [{ R := 0, G := 0, B := 0, A := 0 }, { R := 255, G := 255, B := 255, A := 0 },
          { R := 255, G := 255, B := 255, A := 0 }] =
      Except.ok (if Float64.le l (Float64.fin 50) then { R := 0, G := 0, B := 0, A := 0 }
        else { R := 255, G := 255, B := 255, A := 0 }) := by
  obtain ⟨q, rfl, hq0, hq100⟩ := (inPercentRange_iff l).1 hl
  by_cases h50 : q ≤ 50
  · have hc : tierCond (Float64.fin q) (Float64.fin 0) (Float64.fin 50) := by
      unfold tierCond
      rcases hq0.eq_or_lt with h | h
      · right; simp [Float64.eq, ← h]
      · left; exact ⟨by simpa [Float64.lt] using h, by simpa [Float64.le] using h50⟩
    have hle : Float64.le (Float64.fin q) (Float64.fin 50) := by simpa [Float64.le] using h50
    simp [convertLuminance, convertLuminanceLoop, hc, hle]
  · have hc : ¬ tierCond (Float64.fin q) (Float64.fin 0) (Float64.fin 50) := by
      unfold tierCond
      simp only [Float64.lt, Float64.le, Float64.eq]
      push_neg
      constructor
      · intro _; linarith
      · intro h; rw [h] at h50; norm_num at h50
    have hc2 : tierCond (Float64.fin q) (Float64.fin 50) (Float64.fin 100) := by
      unfold tierCond
      left
      exact ⟨by simp only [Float64.lt]; linarith, by simpa [Float64.le] using hq100⟩
    have hle : ¬ Float64.le (Float64.fin q) (Float64.fin 50) := by simpa [Float64.le] using h50
    simp [convertLuminance, convertLuminanceLoop, hc, hc2, hle]

/-! ## Lemmas on the selected tier -/

/-- The loop selects the first matching tier among the `k` indices from `i` on, and
none when none of them matches. -/
lemma selectedTierLoop_spec (l : Float64) (ths : List Float64) :
    ∀ (k i : ℕ), (k = 0 ∨ i + k < ths.length) →
      (selectedTierLoop l ths k i = none ∧ ∀ j, i ≤ j → j < i + k → ¬ tierMatches l ths j) ∨
      (∃ j, i ≤ j ∧ j < i + k ∧ selectedTierLoop l ths k i = some j ∧ tierMatches l ths j ∧
        ∀ j2, i ≤ j2 → j2 < j → ¬ tierMatches l ths j2) := by
  intro k
  induction k with
  | zero =>
    intro i _
    left
    exact ⟨rfl, fun j h1 h2 => by omega⟩
  | succ k ih =>
    intro i hk
    have hlen : i + (k + 1) < ths.length := by
      rcases hk with h | h
      · omega
      · exact h
    have h0 : ths[i]? = some (ths.get ⟨i, by omega⟩) := List.getElem?_eq_getElem (by omega)
    have h1 : ths[i + 1]? = some (ths.get ⟨i + 1, by omega⟩) :=
      List.getElem?_eq_getElem (by omega)
    unfold selectedTierLoop
    rw [h0, h1]
    by_cases hc : tierCond l (ths.get ⟨i, by omega⟩) (ths.get ⟨i + 1, by omega⟩)
    · right
      refine ⟨i, le_refl i, by omega, by simp only [hc, if_true], ?_, fun j2 a b => by omega⟩
      exact (tierMatches_iff l ths i).2 ⟨_, _, h0, h1, hc⟩
    · have hni : ¬ tierMatches l ths i := by
        intro hm
        obtain ⟨lo, hi, e0, e1, hcond⟩ := (tierMatches_iff l ths i).1 hm
        rw [h0] at e0; rw [h1] at e1
        cases e0; cases e1
        exact hc hcond
      simp only [hc, if_false]
      rcases ih (i + 1) (Or.inr (by omega)) with ⟨hn, hno⟩ | ⟨j, a, b, hs, hm, hfirst⟩
      · left
        refine ⟨hn, fun j a b => ?_⟩
        rcases eq_or_lt_of_le a with heq | hlt
        · subst heq; exact hni
        · exact hno j (by omega) (by omega)
      · right
        refine ⟨j, by omega, by omega, hs, hm, fun j2 a2 b2 => ?_⟩
        rcases eq_or_lt_of_le a2 with heq | hlt
        · subst heq; exact hni
        · exact hfirst j2 (by omega) b2

/-- The selected tier is the first matching tier. -/
lemma selectedTier_eq_some_iff (l : Float64) (ths : List Float64) (i : ℕ) :
    selectedTier l ths = some i ↔
      tierMatches l ths i ∧ ∀ j, j < i → ¬ tierMatches l ths j := by
  have hk : ths.length - 1 = 0 ∨ 0 + (ths.length - 1) < ths.length := by omega
  unfold selectedTier
  rcases selectedTierLoop_spec l ths (ths.length - 1) 0 hk with
    ⟨hn, hno⟩ | ⟨j, -, hj, hs, hm, hfirst⟩
  · rw [hn]
    constructor
    · intro h; cases h
    · rintro ⟨hm, -⟩
      have := tierMatches_lt hm
      exact absurd hm (hno i (Nat.zero_le i) (by omega))
  · rw [hs]
    constructor
    · intro h
      cases h
      exact ⟨hm, fun j2 h2 => hfirst j2 (Nat.zero_le j2) h2⟩
    · rintro ⟨hmi, hfi⟩
      rcases Nat.lt_trichotomy i j with h | h | h
      · exact absurd hmi (hfirst i (Nat.zero_le i) h)
      · rw [h]
      · exact absurd hm (hfi j h)

lemma selectedTier_eq_none_iff (l : Float64) (ths : List Float64) :
    selectedTier l ths = none ↔ ¬ ∃ i, tierMatches l ths i := by
  constructor
  · rintro hn ⟨i, hm⟩
    obtain ⟨i0, hm0, hf0⟩ := exists_first_match ⟨i, hm⟩
    rw [((selectedTier_eq_some_iff l ths i0).2 ⟨hm0, hf0⟩)] at hn
    cases hn
  · intro hno
    cases hsel : selectedTier l ths with
    | none => rfl
    | some i => exact absurd ⟨i, ((selectedTier_eq_some_iff l ths i).1 hsel).1⟩ hno

/-- `convertLuminance` evaluates `converted[i]` at the selected tier `i`, and ends in
the fatal branch when no tier is selected. -/
lemma convertLuminance_eq_selected (l : Float64) (ths : List Float64) (cols : List RGBA) :
    convertLuminance l ths cols =
      match selectedTier l ths with
      | some i => colorAt cols i
      | none => Except.error Failure.luminanceOverThresholds := by
  cases hsel : selectedTier l ths with
  | none =>
    simp only
    exact (convertLuminance_fatal_iff l ths cols).2 ((selectedTier_eq_none_iff l ths).1 hsel)
  | some i =>
    simp only
    obtain ⟨hm, hf⟩ := (selectedTier_eq_some_iff l ths i).1 hsel
    exact convertLuminance_of_first cols hm hf

/-- A successful lookup returns the colour list's entry at the selected tier, an
index below `len(thresholds) - 1`. -/
lemma convertLuminance_ok_index {l : Float64} {ths : List Float64} {cols : List RGBA}
    {c : RGBA} (h : convertLuminance l ths cols = Except.ok c) :
    ∃ i, selectedTier l ths = some i ∧ i + 1 < ths.length ∧ cols[i]? = some c := by
  rw [convertLuminance_eq_selected] at h
  cases hsel : selectedTier l ths with
  | none => rw [hsel] at h; cases h
  | some i =>
    rw [hsel] at h
    simp only at h
    refine ⟨i, rfl, tierMatches_lt ((selectedTier_eq_some_iff l ths i).1 hsel).1, ?_⟩
    unfold colorAt at h
    split at h
    · next c2 hc2 => cases h; exact hc2
    · cases h

/-- Colour lists that agree below index `len(thresholds) - 1` give the same lookups. -/
lemma convertLuminance_congr (l : Float64) (ths : List Float64) (cols1 cols2 : List RGBA)
    (h : ∀ i, i + 1 < ths.length → cols1[i]? = cols2[i]?) :
    convertLuminance l ths cols1 = convertLuminance l ths cols2 := by
  rw [convertLuminance_eq_selected l ths cols1, convertLuminance_eq_selected l ths cols2]
  cases hsel : selectedTier l ths with
  | none => rfl
  | some i =>
    simp only
    have hi := tierMatches_lt ((selectedTier_eq_some_iff l ths i).1 hsel).1
    unfold colorAt
    rw [h i hi]

/-- With at least `len(thresholds) - 1` colours no lookup is out of bounds. -/
lemma convertLuminance_no_panic (l : Float64) (ths : List Float64) (cols : List RGBA)
    (h : ths.length - 1 ≤ cols.length) :
    convertLuminance l ths cols ≠ Except.error Failure.indexOutOfRange := by
  rw [convertLuminance_eq_selected]
  cases hsel : selectedTier l ths with
  | none => simp
  | some i =>
    simp only
    have hi := tierMatches_lt ((selectedTier_eq_some_iff l ths i).1 hsel).1
    rw [colorAt_of_lt (by omega)]
    simp

/-- The selected tier does not decrease when the luminance grows, for sorted
thresholds and a smaller luminance that is not negative. -/
lemma selectedTier_mono {ths : List Float64} (hs : sortedAscending ths) {l1 l2 : Float64}
    (hle : Float64.le l1 l2) (h0 : Float64.le (Float64.fin 0) l1) {i1 i2 : ℕ}
    (h1 : selectedTier l1 ths = some i1) (h2 : selectedTier l2 ths = some i2) : i1 ≤ i2 := by
  obtain ⟨hm1, hf1⟩ := (selectedTier_eq_some_iff l1 ths i1).1 h1
  obtain ⟨hm2, -⟩ := (selectedTier_eq_some_iff l2 ths i2).1 h2
  by_contra hlt
  have hlt2 : i2 < i1 := by omega
  obtain ⟨lo1, hi1, e1, f1, c1⟩ := (tierMatches_iff l1 ths i1).1 hm1
  obtain ⟨lo2, hi2, e2, f2, c2⟩ := (tierMatches_iff l2 ths i2).1 hm2
  by_cases hz : Float64.eq l1 (Float64.fin 0)
  · exact hf1 i2 hlt2 ((tierMatches_iff l1 ths i2).2 ⟨lo2, hi2, e2, f2, Or.inr hz⟩)
  · rcases c1 with c1 | c1
    · rcases c2 with c2 | c2
      · exact tier_disjoint hs hlt2 f2 e1 (Float64.le_le hle c2.2) c1.1
      · rw [Float64.eq_zero_iff] at c2
        subst c2
        apply hz
        rw [Float64.eq_zero_iff]
        cases l1 <;> simp_all [Float64.le]
        exact le_antisymm hle h0
    · exact hz c1

/-- A luminance with a selected tier is not negative when no threshold is below 0. -/
lemma selected_nonneg {ths : List Float64}
    (hth : ∀ t ∈ ths, ¬ Float64.lt t (Float64.fin 0)) {l : Float64} {i : ℕ}
    (h : selectedTier l ths = some i) : Float64.le (Float64.fin 0) l := by
  obtain ⟨hm, -⟩ := (selectedTier_eq_some_iff l ths i).1 h
  obtain ⟨lo, hi, e1, -, c | c⟩ := (tierMatches_iff l ths i).1 hm
  · have hlo := hth lo (List.getElem?_mem e1)
    have hlt := c.1
    cases lo <;> cases l <;> simp_all [Float64.lt, Float64.le]
    linarith
  · rw [Float64.eq_zero_iff] at c
    subst c
    simp [Float64.le]

/-- The selected tier does not decrease when the luminance grows, for sorted
thresholds with no entry below 0. -/
lemma selectedTier_mono_of_thresholds {ths : List Float64} (hs : sortedAscending ths)
    (hth : ∀ t ∈ ths, ¬ Float64.lt t (Float64.fin 0)) {l1 l2 : Float64}
    (hle : Float64.le l1 l2) {i1 i2 : ℕ}
    (h1 : selectedTier l1 ths = some i1) (h2 : selectedTier l2 ths = some i2) : i1 ≤ i2 :=
  selectedTier_mono hs hle (selected_nonneg hth h1) h1 h2

/-! ## Coverage without sorting -/

lemma Float64.lt_of_not_le {l b : Float64} (hl : l ≠ Float64.nan) (hb : b ≠ Float64.nan)
    (h : ¬ Float64.le l b) : Float64.lt b l := by
  cases l <;> cases b <;> simp_all [Float64.le, Float64.lt]

lemma Float64.ne_nan_of_lt {a l : Float64} (h : Float64.lt a l) : l ≠ Float64.nan := by
  cases a <;> cases l <;> simp_all [Float64.lt]

/-- Between a first threshold below `l` and a last threshold not below `l` there is a
tier whose bounds enclose `l`, in any order of the thresholds, none of them NaN. -/
lemma exists_tier_between_any (l : Float64) :
    ∀ (rest : List Float64) (a z : Float64), Float64.lt a l →
      (a :: rest).getLast? = some z → Float64.le l z →
      (∀ t ∈ rest, t ≠ Float64.nan) →
      ∃ i lo hi, (a :: rest)[i]? = some lo ∧ (a :: rest)[i + 1]? = some hi ∧
        Float64.lt lo l ∧ Float64.le l hi := by
  intro rest
  induction rest with
  | nil =>
    intro a z ha hz hqz _
    simp at hz
    subst hz
    exact absurd ha (Float64.le_not_lt hqz)
  | cons b rest ih =>
    intro a z ha hz hqz hnan
    by_cases hb : Float64.le l b
    · exact ⟨0, a, b, by simp, by simp, ha, hb⟩
    · have hbl := Float64.lt_of_not_le (Float64.ne_nan_of_lt ha) (hnan b (by simp)) hb
      rw [List.getLast?_cons_cons] at hz
      obtain ⟨i, lo, hi, e1, e2, h1, h2⟩ :=
        ih b z hbl hz hqz (fun t ht => hnan t (by simp [ht]))
      exact ⟨i + 1, lo, hi, by simpa using e1, by simpa using e2, h1, h2⟩

/-- Coverage in any order: a luminance that is zero, or above the first threshold and
at most the last one, matches some tier of a list of two or more thresholds without
NaN. -/
lemma unsorted_covers {ths : List Float64} {l : Float64} (hlen : 2 ≤ ths.length)
    (hnan : ∀ t ∈ ths, t ≠ Float64.nan)
    (h : Float64.eq l (Float64.fin 0) ∨
      ∃ t0 tz, ths.head? = some t0 ∧ ths.getLast? = some tz ∧ Float64.lt t0 l ∧
        Float64.le l tz) :
    ∃ i, tierMatches l ths i := by
  cases ths with
  | nil => simp at hlen
  | cons a rest =>
    rcases h with hz | ⟨t0, tz, h0, hlast, hlt, hle⟩
    · cases rest with
      | nil => simp at hlen
      | cons b rest =>
        exact ⟨0, (tierMatches_iff _ _ _).2 ⟨a, b, by simp, by simp, Or.inr hz⟩⟩
    · simp only [List.head?_cons, Option.some.injEq] at h0
      subst h0
      obtain ⟨i, lo, hi, e1, e2, h1, h2⟩ :=
        exists_tier_between_any l rest a tz hlt hlast hle (fun t ht => hnan t (by simp [ht]))
      exact ⟨i, (tierMatches_iff _ _ _).2 ⟨lo, hi, e1, e2, Or.inl ⟨h1, h2⟩⟩⟩

/-! ## Lemmas on the colour round trip -/

lemma hexToColor_encode {h : ℕ} (h24 : h ≤ 0xFFFFFF) :
    (hexToColor h).R * 65536 + (hexToColor h).G * 256 + (hexToColor h).B = h := by
  rw [hexToColor_eq h]
  simp only
  omega

lemma hexToColor_injective {h1 h2 : ℕ} (a : h1 ≤ 0xFFFFFF) (b : h2 ≤ 0xFFFFFF)
    (h : hexToColor h1 = hexToColor h2) : h1 = h2 := by
  rw [← hexToColor_encode a, ← hexToColor_encode b, h]

/-! ## The last colour in `run` -/

/-- The table construction never ends in an index panic. -/
lemma buildTable_no_panic (pf : String → Option Float64) (pu : String → Option ℕ)
    (t c : String) : buildTable pf pu t c ≠ Except.error Failure.indexOutOfRange := by
  unfold buildTable
  split
  · next e hT =>
    intro h
    cases h
    revert hT
    generalize split t ',' = ts
    generalize ([] : List Float64) = acc
    intro hT
    induction ts generalizing acc with
    | nil => simp [parseThresholds] at hT
    | cons tok ts ih =>
      unfold parseThresholds at hT
      split at hT
      · cases hT
      · split_ifs at hT
        · cases hT
        · exact ih _ hT
  · next thresholds hT =>
    split
    · next e hC =>
      intro h
      cases h
      revert hC
      generalize split c ',' = cs
      generalize ([] : List RGBA) = acc
      intro hC
      induction cs generalizing acc with
      | nil => simp [parseColors] at hC
      | cons tok cs ih =>
        unfold parseColors at hC
        split at hC
        · cases hC
        · split_ifs at hC
          · cases hC
          · exact ih _ hC
    · next convertedColors hC =>
      split
      · next hlast =>
        have h2 := parseColors_length pu _ _ _ hC
        have h4 : 0 < (split c ',').length := List.length_pos.2 (split_ne_nil c ',')
        simp only [List.length_nil, zero_add] at h2
        have : convertedColors ≠ [] := by
          intro h
          rw [h] at h2
          simp at h2
          omega
        rw [List.getLast?_eq_none_iff] at hlast
        exact absurd hlast this
      · simp

/-! ## Lemmas on the two parsing loops -/

lemma parseThresholds_ok_of_accepted (pf : String → Option Float64) :
    ∀ (ts : List String) (acc : List Float64),
      (∀ tok ∈ ts, ∃ th, pf tok = some th ∧ ¬ Float64.lt th (Float64.fin 0) ∧
        ¬ Float64.lt (Float64.fin 100) th) →
      ∃ vals, List.Forall₂ (fun tok th => pf tok = some th) ts vals ∧
        parseThresholds pf ts acc = Except.ok (acc ++ vals) := by
  intro ts
  induction ts with
  | nil =>
    intro acc _
    exact ⟨[], List.Forall₂.nil, by simp [parseThresholds]⟩
  | cons tok ts ih =>
    intro acc h
    obtain ⟨th, hp, h1, h2⟩ := h tok (by simp)
    obtain ⟨vals, hv, hr⟩ := ih (acc ++ [th]) (fun t ht => h t (by simp [ht]))
    refine ⟨th :: vals, List.Forall₂.cons hp hv, ?_⟩
    unfold parseThresholds
    rw [hp]
    simp only
    rw [if_neg (by tauto), hr]
    simp

lemma parseThresholds_error (pf : String → Option Float64) :
    ∀ (ts : List String) (acc : List Float64) (e : Failure),
      parseThresholds pf ts acc = Except.error e →
      ∃ tok ∈ ts, e = Failure.invalidThreshold tok ∧
        (pf tok = none ∨ ∃ th, pf tok = some th ∧
          (Float64.lt th (Float64.fin 0) ∨ Float64.lt (Float64.fin 100) th)) := by
  intro ts
  induction ts with
  | nil =>
    intro acc e h
    simp [parseThresholds] at h
  | cons tok ts ih =>
    intro acc e h
    unfold parseThresholds at h
    split at h
    · next hp =>
      cases h
      exact ⟨tok, by simp, rfl, Or.inl hp⟩
    · next th hp =>
      split_ifs at h with hc
      · cases h
        exact ⟨tok, by simp, rfl, Or.inr ⟨th, hp, hc⟩⟩
      · obtain ⟨tok2, hmem, he, hbad⟩ := ih _ e h
        exact ⟨tok2, by simp [hmem], he, hbad⟩

lemma parseThresholds_ok_accepted (pf : String → Option Float64) :
    ∀ (ts : List String) (acc r : List Float64),
      parseThresholds pf ts acc = Except.ok r →
      ∀ tok ∈ ts, ∃ th, pf tok = some th ∧ ¬ Float64.lt th (Float64.fin 0) ∧
        ¬ Float64.lt (Float64.fin 100) th := by
  intro ts
  induction ts with
  | nil =>
    intro acc r _ tok htok
    simp at htok
  | cons t ts ih =>
    intro acc r h tok htok
    unfold parseThresholds at h
    split at h
    · cases h
    · next th hp =>
      split_ifs at h with hc
      rcases List.mem_cons.1 htok with rfl | hmem
      · exact ⟨th, hp, by tauto, by tauto⟩
      · exact ih _ r h tok hmem

lemma parseColors_ok_of_accepted (pu : String → Option ℕ) :
    ∀ (cs : List String) (acc : List RGBA),
      (∀ tok ∈ cs, ∃ h, pu tok = some h ∧ h ≤ 0xFFFFFF) →
      ∃ vals, List.Forall₂ (fun tok col => ∃ h, pu tok = some h ∧ col = hexToColor h) cs vals ∧
        parseColors pu cs acc = Except.ok (acc ++ vals) := by
  intro cs
  induction cs with
  | nil =>
    intro acc _
    exact ⟨[], List.Forall₂.nil, by simp [parseColors]⟩
  | cons tok cs ih =>
    intro acc h
    obtain ⟨v, hp, hv⟩ := h tok (by simp)
    have hmod : v % 2 ^ 32 = v := Nat.mod_eq_of_lt (by omega)
    obtain ⟨vals, hvals, hr⟩ := ih (acc ++ [hexToColor v]) (fun t ht => h t (by simp [ht]))
    refine ⟨hexToColor v :: vals, List.Forall₂.cons ⟨v, hp, rfl⟩ hvals, ?_⟩
    unfold parseColors
    rw [hp]
    simp only
    rw [if_neg (by omega), hmod, hr]
    simp

lemma parseColors_error (pu : String → Option ℕ) :
    ∀ (cs : List String) (acc : List RGBA) (e : Failure),
      parseColors pu cs acc = Except.error e →
      ∃ tok ∈ cs, e = Failure.invalidColor tok ∧
        (pu tok = none ∨ ∃ h, pu tok = some h ∧ 0xFFFFFF < h) := by
  intro cs
  induction cs with
  | nil =>
    intro acc e h
    simp [parseColors] at h
  | cons tok cs ih =>
    intro acc e h
    unfold parseColors at h
    split at h
    · next hp =>
      cases h
      exact ⟨tok, by simp, rfl, Or.inl hp⟩
    · next v hp =>
      split_ifs at h with hc
      · cases h
        exact ⟨tok, by simp, rfl, Or.inr ⟨v, hp, hc⟩⟩
      · obtain ⟨tok2, hmem, he, hbad⟩ := ih _ e h
        exact ⟨tok2, by simp [hmem], he, hbad⟩

lemma parseColors_ok_accepted (pu : String → Option ℕ) :
    ∀ (cs : List String) (acc r : List RGBA),
      parseColors pu cs acc = Except.ok r →
      ∀ tok ∈ cs, ∃ h, pu tok = some h ∧ h ≤ 0xFFFFFF := by
  intro cs
  induction cs with
  | nil =>
    intro acc r _ tok htok
    simp at htok
  | cons t cs ih =>
    intro acc r h tok htok
    unfold parseColors at h
    split at h
    · cases h
    · next v hp =>
      split_ifs at h with hc
      rcases List.mem_cons.1 htok with rfl | hmem
      · exact ⟨v, hp, by omega⟩
      · exact ih _ r h tok hmem

/-- Every colour the second loop appends has alpha 0. -/
lemma parseColors_alpha (pu : String → Option ℕ) :
    ∀ (cs : List String) (acc r : List RGBA),
      parseColors pu cs acc = Except.ok r → (∀ col ∈ acc, col.A = 0) →
      ∀ col ∈ r, col.A = 0 := by
  intro cs
  induction cs with
  | nil =>
    intro acc r h hacc
    simp only [parseColors, Except.ok.injEq] at h
    subst h
    exact hacc
  | cons t cs ih =>
    intro acc r h hacc
    unfold parseColors at h
    split at h
    · cases h
    · split_ifs at h
      apply ih _ r h
      intro col hcol
      rcases List.mem_append.1 hcol with h1 | h1
      · exact hacc col h1
      · simp only [List.mem_singleton] at h1
        subst h1
        rfl

/-- The outcome of `buildTable` in terms of the outcomes of its two loops. -/
lemma buildTable_cases (pf : String → Option Float64) (pu : String → Option ℕ)
    (t c : String) :
    (∃ e, parseThresholds pf (split t ',') [] = Except.error e ∧
      buildTable pf pu t c = Except.error e) ∨
    (∃ ths e, parseThresholds pf (split t ',') [] = Except.ok ths ∧
      parseColors pu (split c ',') [] = Except.error e ∧
      buildTable pf pu t c = Except.error e) ∨
    (∃ ths cols last, parseThresholds pf (split t ',') [] = Except.ok ths ∧
      parseColors pu (split c ',') [] = Except.ok cols ∧ cols.getLast? = some last ∧
      buildTable pf pu t c = Except.ok (ths ++ [Float64.fin 100], cols ++ [last])) := by
  have hnp := buildTable_no_panic pf pu t c
  unfold buildTable at hnp ⊢
  cases hT : parseThresholds pf (split t ',') [] with
  | error e => left; exact ⟨e, rfl, rfl⟩
  | ok ths =>
    right
    cases hC : parseColors pu (split c ',') [] with
    | error e => left; exact ⟨ths, e, rfl, rfl, rfl⟩
    | ok cols =>
      right
      rw [hT, hC] at hnp
      simp only at hnp ⊢
      cases hl : cols.getLast? with
      | none => rw [hl] at hnp; simp at hnp
      | some last => exact ⟨ths, cols, last, rfl, rfl, hl, rfl⟩

/-- Every colour of a constructed table has alpha 0. -/
lemma buildTable_alpha {pf : String → Option Float64} {pu : String → Option ℕ}
    {t c : String} {ths : List Float64} {cols : List RGBA}
    (h : buildTable pf pu t c = Except.ok (ths, cols)) : ∀ col ∈ cols, col.A = 0 := by
  rcases buildTable_cases pf pu t c with ⟨e, -, hb⟩ | ⟨ths2, e, -, -, hb⟩ |
    ⟨ths2, cols2, last, -, hC, hl, hb⟩
  · rw [hb] at h; cases h
  · rw [hb] at h; cases h
  · rw [hb] at h
    simp only [Except.ok.injEq, Prod.mk.injEq] at h
    obtain ⟨-, rfl⟩ := h
    have ha := parseColors_alpha pu _ _ _ hC (by simp)
    intro col hcol
    rcases List.mem_append.1 hcol with h1 | h1
    · exact ha col h1
    · simp only [List.mem_singleton] at h1
      subst h1
      exact ha col (List.mem_of_getLast?_eq_some hl)

/-! ## More lemmas on `convertImage` -/

lemma convertRow_lookups (img : Image) (ths : List Float64) (cols : List RGBA) (y : ℤ) :
    ∀ (k : ℕ) (x : ℤ) (conv out : RGBAImage),
      convertRow img ths cols y k x conv = Except.ok out →
      ∀ x2, x ≤ x2 → x2 < x + k →
        ∃ c, convertLuminance (luminance (img.At x2 y)) ths cols = Except.ok c := by
  intro k
  induction k with
  | zero =>
    intro x conv out _ x2 h1 h2
    simp at h2
    omega
  | succ k ih =>
    intro x conv out h x2 h1 h2
    unfold convertRow at h
    split at h
    · next c hc =>
      rcases eq_or_lt_of_le h1 with heq | hlt
      · subst heq
        exact ⟨c, hc⟩
      · exact ih (x + 1) _ out h x2 (by omega) (by push_cast at h2; omega)
    · cases h

lemma convertRows_lookups (img : Image) (ths : List Float64) (cols : List RGBA) :
    ∀ (k : ℕ) (y : ℤ) (conv out : RGBAImage),
      convertRows img ths cols k y conv = Except.ok out →
      ∀ x2 y2, img.bounds.minX ≤ x2 →
        x2 < img.bounds.minX + ((img.bounds.maxX - img.bounds.minX).toNat : ℤ) →
        y ≤ y2 → y2 < y + k →
        ∃ c, convertLuminance (luminance (img.At x2 y2)) ths cols = Except.ok c := by
  intro k
  induction k with
  | zero =>
    intro y conv out _ x2 y2 _ _ h1 h2
    simp at h2
    omega
  | succ k ih =>
    intro y conv out h x2 y2 a b h1 h2
    unfold convertRows at h
    split at h
    · next row hrow =>
      rcases eq_or_lt_of_le h1 with heq | hlt
      · subst heq
        exact convertRow_lookups img ths cols y _ _ conv row hrow x2 a b
      · exact ih (y + 1) row out h x2 y2 a b (by omega) (by push_cast at h2; omega)
    · cases h

/-- A conversion that returns an image had every lookup inside the bounds succeed,
and the image holds the looked-up colours. -/
lemma convertImage_ok_inv {img : Image} {ths : List Float64} {cols : List RGBA}
    {out : RGBAImage} (hw : img.bounds.minX ≤ img.bounds.maxX)
    (hh : img.bounds.minY ≤ img.bounds.maxY)
    (h : convertImage img ths cols = Except.ok out) :
    out.rect = img.bounds ∧
      ∀ x y, img.bounds.contains x y →
        convertLuminance (luminance (img.At x y)) ths cols = Except.ok (out.RGBAAt x y) := by
  have hwidth : img.bounds.minX + ((img.bounds.maxX - img.bounds.minX).toNat : ℤ) =
      img.bounds.maxX := by
    rw [Int.toNat_of_nonneg (by omega)]
    omega
  have hheight : img.bounds.minY + ((img.bounds.maxY - img.bounds.minY).toNat : ℤ) =
      img.bounds.maxY := by
    rw [Int.toNat_of_nonneg (by omega)]
    omega
  have hok : ∀ x y, img.bounds.contains x y →
      ∃ c, convertLuminance (luminance (img.At x y)) ths cols = Except.ok c := by
    intro x y hc
    obtain ⟨a, b, c, d⟩ := hc
    exact convertRows_lookups img ths cols _ _ _ out h x y a (by rw [hwidth]; exact b) c
      (by rw [hheight]; exact d)
  obtain ⟨out2, h1, h2, h3⟩ := convertImage_ok img ths cols hw hh hok
  rw [h] at h1
  cases h1
  exact ⟨h2, h3⟩

/-! ## Lookups past the end of the colour list -/

/-- With two or more colours fewer than thresholds configured, thresholds in
`[0, 100]` sorted ascending, every luminance above the last configured threshold and
at most 100 is looked up past the end of the colour list. -/
lemma short_colours_panic {cfgT : List Float64} {cfgC : List RGBA} {last : RGBA}
    {lo l : Float64} (hs : sortedAscending (cfgT ++ [Float64.fin 100]))
    (hin : ∀ t ∈ cfgT, inPercentRange t) (hlast : cfgT.getLast? = some lo)
    (hlt : Float64.lt lo l) (hle : Float64.le l (Float64.fin 100))
    (hlen : cfgC.length + 2 ≤ cfgT.length) :
    convertLuminance l (cfgT ++ [Float64.fin 100]) (cfgC ++ [last]) =
      Except.error Failure.indexOutOfRange := by
  have hlo := hin lo (List.mem_of_getLast?_eq_some hlast)
  have hne : ¬ Float64.eq l (Float64.fin 0) := by
    intro h
    rw [Float64.eq_zero_iff] at h
    subst h
    exact Float64.le_not_lt hlo.1 hlt
  have e1 : (cfgT ++ [Float64.fin 100])[cfgT.length - 1]? = some lo := by
    rw [List.getElem?_append_left (by omega), ← List.getLast?_eq_getElem?]
    exact hlast
  have e2 : (cfgT ++ [Float64.fin 100])[cfgT.length - 1 + 1]? = some (Float64.fin 100) := by
    have : cfgT.length - 1 + 1 = cfgT.length := by omega
    rw [this]
    exact List.getElem?_concat_length cfgT _
  have hm : tierMatches l (cfgT ++ [Float64.fin 100]) (cfgT.length - 1) :=
    (tierMatches_iff _ _ _).2 ⟨lo, _, e1, e2, Or.inl ⟨hlt, hle⟩⟩
  have hfirst : ∀ j, j < cfgT.length - 1 →
      ¬ tierMatches l (cfgT ++ [Float64.fin 100]) j := by
    intro j hj hmj
    obtain ⟨lo2, hi2, f1, f2, h | h⟩ := (tierMatches_iff _ _ _).1 hmj
    · exact tier_disjoint hs hj f2 e1 h.2 hlt
    · exact hne h
  rw [convertLuminance_of_first _ hm hfirst]
  exact colorAt_of_le (by simp; omega)

/-! ## Lemmas on the validation errors -/

lemma buildTable_invalidThreshold_iff (pf : String → Option Float64) (pu : String → Option ℕ)
    (t c : String) :
    (∃ tok, buildTable pf pu t c = Except.error (Failure.invalidThreshold tok)) ↔
      ∃ tok ∈ split t ',', pf tok = none ∨ ∃ th, pf tok = some th ∧
        (Float64.lt th (Float64.fin 0) ∨ Float64.lt (Float64.fin 100) th) := by
  constructor
  · rintro ⟨tok, h⟩
    rcases buildTable_cases pf pu t c with ⟨e, hT, hb⟩ | ⟨ths, e, -, hC, hb⟩ |
      ⟨ths, cols, last, -, -, -, hb⟩
    · obtain ⟨tok2, hmem, -, hbad⟩ := parseThresholds_error pf _ _ e hT
      exact ⟨tok2, hmem, hbad⟩
    · obtain ⟨tok2, -, he, -⟩ := parseColors_error pu _ _ e hC
      rw [hb, he] at h
      cases h
    · rw [hb] at h
      cases h
  · rintro ⟨tok, hmem, hbad⟩
    rcases buildTable_cases pf pu t c with ⟨e, hT, hb⟩ | ⟨ths, e, hT, -, -⟩ |
      ⟨ths, cols, last, hT, -, -, -⟩
    · obtain ⟨tok2, -, he, -⟩ := parseThresholds_error pf _ _ e hT
      exact ⟨tok2, by rw [hb, he]⟩
    · obtain ⟨th, hp, h1, h2⟩ := parseThresholds_ok_accepted pf _ _ _ hT tok hmem
      rcases hbad with hn | ⟨th2, hp2, hb2⟩
      · rw [hn] at hp; cases hp
      · rw [hp2] at hp; cases hp; tauto
    · obtain ⟨th, hp, h1, h2⟩ := parseThresholds_ok_accepted pf _ _ _ hT tok hmem
      rcases hbad with hn | ⟨th2, hp2, hb2⟩
      · rw [hn] at hp; cases hp
      · rw [hp2] at hp; cases hp; tauto

lemma buildTable_invalidColor_iff (pf : String → Option Float64) (pu : String → Option ℕ)
    (t c : String) (ths : List Float64)
    (hT : parseThresholds pf (split t ',') [] = Except.ok ths) :
    (∃ tok, buildTable pf pu t c = Except.error (Failure.invalidColor tok)) ↔
      ∃ tok ∈ split c ',', pu tok = none ∨ ∃ h, pu tok = some h ∧ 0xFFFFFF < h := by
  constructor
  · rintro ⟨tok, h⟩
    rcases buildTable_cases pf pu t c with ⟨e, hT2, -⟩ | ⟨ths2, e, -, hC, hb⟩ |
      ⟨ths2, cols, last, -, -, -, hb⟩
    · rw [hT] at hT2; cases hT2
    · obtain ⟨tok2, hmem, -, hbad⟩ := parseColors_error pu _ _ e hC
      exact ⟨tok2, hmem, hbad⟩
    · rw [hb] at h
      cases h
  · rintro ⟨tok, hmem, hbad⟩
    rcases buildTable_cases pf pu t c with ⟨e, hT2, -⟩ | ⟨ths2, e, -, hC, hb⟩ |
      ⟨ths2, cols, last, -, hC, -, -⟩
    · rw [hT] at hT2; cases hT2
    · obtain ⟨tok2, -, he, -⟩ := parseColors_error pu _ _ e hC
      exact ⟨tok2, by rw [hb, he]⟩
    · obtain ⟨v, hp, hv⟩ := parseColors_ok_accepted pu _ _ _ hC tok hmem
      rcases hbad with hn | ⟨v2, hp2, hb2⟩
      · rw [hn] at hp; cases hp
      · rw [hp2] at hp; cases hp; omega

/-- The table of an accepted configuration: the parsed thresholds and the sentinel,
the decoded colours and a copy of the last one. -/
lemma buildTable_of_accepted (pf : String → Option Float64) (pu : String → Option ℕ)
    (t c : String)
    (hT : ∀ tok ∈ split t ',', ∃ th, pf tok = some th ∧ ¬ Float64.lt th (Float64.fin 0) ∧
      ¬ Float64.lt (Float64.fin 100) th)
    (hC : ∀ tok ∈ split c ',', ∃ h, pu tok = some h ∧ h ≤ 0xFFFFFF) :
    ∃ parsed decoded last,
      List.Forall₂ (fun tok th => pf tok = some th) (split t ',') parsed ∧
      List.Forall₂ (fun tok col => ∃ h, pu tok = some h ∧ col = hexToColor h)
        (split c ',') decoded ∧
      decoded.getLast? = some last ∧
      parseThresholds pf (split t ',') [] = Except.ok parsed ∧
      buildTable pf pu t c = Except.ok (parsed ++ [Float64.fin 100], decoded ++ [last]) ∧
      (parsed ++ [Float64.fin 100]).length = (split t ',').length + 1 ∧
      (decoded ++ [last]).length = (split c ',').length + 1 := by
  obtain ⟨parsed, hp, hpr⟩ := parseThresholds_ok_of_accepted pf (split t ',') [] hT
  obtain ⟨decoded, hd, hdr⟩ := parseColors_ok_of_accepted pu (split c ',') [] hC
  simp only [List.nil_append] at hpr hdr
  rcases buildTable_cases pf pu t c with ⟨e, hT2, -⟩ | ⟨ths2, e, -, hC2, -⟩ |
    ⟨ths2, cols2, last, hT2, hC2, hl, hb⟩
  · rw [hpr] at hT2; cases hT2
  · rw [hdr] at hC2; cases hC2
  · rw [hpr] at hT2; rw [hdr] at hC2
    cases hT2; cases hC2
    refine ⟨parsed, decoded, last, hp, hd, hl, hpr, hb, ?_, ?_⟩
    · rw [List.length_append, hp.length_eq]; rfl
    · rw [List.length_append, hd.length_eq]; rfl

/-! ## The claims -/

/-- Claim C1. `convertLuminance` returns `colors[i]` for the smallest tier index `i`
in `0..n-2` with `(thresholds[i] < l and l <= thresholds[i+1]) or l == 0` (the index
panic when the colour list is too short to have an entry `i`), and it reaches the
fatal branch exactly when no tier index satisfies that condition. -/
theorem convertLuminance_first_matching_tier (l : Float64) (thresholds : List Float64)
    (colors : List RGBA) :
    (∀ i, tierMatches l thresholds i ↔
      ∃ lo hi, thresholds[i]? = some lo ∧ thresholds[i + 1]? = some hi ∧
        ((Float64.lt lo l ∧ Float64.le l hi) ∨ Float64.eq l (Float64.fin 0))) ∧
    (∀ i, i + 1 < thresholds.length → tierMatches l thresholds i →
      (∀ j, j < i → ¬ tierMatches l thresholds j) →
      (∀ h : i < colors.length,
        convertLuminance l thresholds colors = Except.ok (colors.get ⟨i, h⟩)) ∧
      (colors.length ≤ i →
        convertLuminance l thresholds colors = Except.error Failure.indexOutOfRange)) ∧
    (convertLuminance l thresholds colors = Except.error Failure.luminanceOverThresholds ↔
      ¬ ∃ i, i + 1 < thresholds.length ∧ tierMatches l thresholds i) := by
  refine ⟨fun i => tierMatches_iff l thresholds i, ?_, ?_⟩
  · intro i _ hm hfirst
    constructor
    · intro h
      rw [convertLuminance_of_first colors hm hfirst, colorAt_of_lt h]
    · intro h
      rw [convertLuminance_of_first colors hm hfirst, colorAt_of_le h]
  · rw [convertLuminance_fatal_iff]
    constructor
    · rintro hno ⟨i, -, hm⟩
      exact hno ⟨i, hm⟩
    · rintro hno ⟨i, hm⟩
      exact hno ⟨i, tierMatches_lt hm, hm⟩

/-- Luminance 60 in the table `[0, 50, 100]`: the first matching tier is tier 1, and
its colour is returned. -/
theorem convertLuminance_first_matching_tier_witness :
    convertLuminance (Float64.fin 60) [Float64.fin 0, Float64.fin 50, Float64.fin 100]
        [{ R := 0, G := 0, B := 0, A := 0 }, { R := 255, G := 255, B := 255, A := 0 },
          { R := 255, G := 255, B := 255, A := 0 }] =
      Except.ok { R := 255, G := 255, B := 255, A := 0 } :=
  ((convertLuminance_first_matching_tier (Float64.fin 60)
      [Float64.fin 0, Float64.fin 50, Float64.fin 100]
      [{ R := 0, G := 0, B := 0, A := 0 }, { R := 255, G := 255, B := 255, A := 0 },
        { R := 255, G := 255, B := 255, A := 0 }]).2.1 1 (by simp)
    (by simp [tierMatches, tierCond, Float64.lt, Float64.le, Float64.eq]; norm_num)
    (by
      intro j hj
      obtain rfl : j = 0 := by omega
      simp [tierMatches, tierCond, Float64.lt, Float64.le, Float64.eq]
      norm_num)).1 (by simp)

/-- Claim C2. With thresholds sorted ascending, first threshold 0 and last threshold
100, every luminance in `[0, 100]` maps to exactly one tier: one tier index `i` in
`0..n-2` contains it (`thresholds[i] < l <= thresholds[i+1]`, and `l = 0` in the first
tier only), no other index does, and the lookup does not fail but returns
`colors[i]`. -/
theorem sorted_table_exactly_one_tier (thresholds : List Float64) (colors : List RGBA)
    (l : Float64) (hsorted : sortedAscending thresholds)
    (hfirst : thresholds.head? = some (Float64.fin 0))
    (hlast : thresholds.getLast? = some (Float64.fin 100))
    (hlen : colors.length = thresholds.length) (hl : inPercentRange l) :
    ∃ i, i + 1 < thresholds.length ∧ tierContains thresholds i l ∧
      (∀ j, tierContains thresholds j l → j = i) ∧
      ∃ c, colors[i]? = some c ∧ convertLuminance l thresholds colors = Except.ok c :=
  sorted_table_unique_tier hsorted hfirst hlast hlen hl

/-- The table `[0, 50, 100]` and luminance 60. -/
theorem sorted_table_exactly_one_tier_witness :
    ∃ i, i + 1 < [Float64.fin 0, Float64.fin 50, Float64.fin 100].length ∧
      tierContains [Float64.fin 0, Float64.fin 50, Float64.fin 100] i (Float64.fin 60) ∧
      (∀ j, tierContains [Float64.fin 0, Float64.fin 50, Float64.fin 100] j (Float64.fin 60) →
        j = i) ∧
      ∃ c, [({ R := 0, G := 0, B := 0, A := 0 } : RGBA), { R := 255, G := 255, B := 255, A := 0 },
          { R := 255, G := 255, B := 255, A := 0 }][i]? = some c ∧
        convertLuminance (Float64.fin 60) [Float64.fin 0, Float64.fin 50, Float64.fin 100]
          [{ R := 0, G := 0, B := 0, A := 0 }, { R := 255, G := 255, B := 255, A := 0 },
            { R := 255, G := 255, B := 255, A := 0 }] = Except.ok c :=
  sorted_table_exactly_one_tier _ _ _
    (by simp [sortedAscending, Float64.le]; norm_num) (by simp) (by simp) (by simp)
    (by simp [inPercentRange, Float64.le]; norm_num)

/-- Claim C3, as the code has it. For a threshold list built as the configured
thresholds, each in `[0, 100]`, followed by the sentinel 100, and a luminance `l` in
`[0, 100]` that is zero or above the first configured threshold, some tier matches
and the fatal branch is not reached. -/
theorem sentinel_covers_above_first_threshold (configured : List Float64)
    (colors : List RGBA) (l : Float64) (hne : configured ≠ [])
    (hin : ∀ t ∈ configured, inPercentRange t) (hl : inPercentRange l)
    (hfirst : Float64.eq l (Float64.fin 0) ∨
      ∃ t0, configured.head? = some t0 ∧ Float64.lt t0 l) :
    (∃ i, i + 1 < (configured ++ [Float64.fin 100]).length ∧
      tierMatches l (configured ++ [Float64.fin 100]) i) ∧
    convertLuminance l (configured ++ [Float64.fin 100]) colors ≠
      Except.error Failure.luminanceOverThresholds := by
  obtain ⟨i, hm⟩ := sentinel_covers hin hl hfirst hne
  refine ⟨⟨i, tierMatches_lt hm, hm⟩, ?_⟩
  rw [Ne, convertLuminance_fatal_iff]
  exact fun hno => hno ⟨i, hm⟩

/-- Configured thresholds `[20, 50]` and luminance 30. -/
theorem sentinel_covers_above_first_threshold_witness :
    (∃ i, i + 1 < ([Float64.fin 20, Float64.fin 50] ++ [Float64.fin 100]).length ∧
      tierMatches (Float64.fin 30) ([Float64.fin 20, Float64.fin 50] ++ [Float64.fin 100]) i) ∧
    convertLuminance (Float64.fin 30) ([Float64.fin 20, Float64.fin 50] ++ [Float64.fin 100])
        [{ R := 0, G := 0, B := 0, A := 0 }, { R := 255, G := 255, B := 255, A := 0 },
          { R := 255, G := 255, B := 255, A := 0 }] ≠
      Except.error Failure.luminanceOverThresholds :=
  sentinel_covers_above_first_threshold [Float64.fin 20, Float64.fin 50] _ (Float64.fin 30)
    (by simp) (by simp [inPercentRange, Float64.le]; norm_num)
    (by simp [inPercentRange, Float64.le]; norm_num)
    (Or.inr ⟨Float64.fin 20, by simp, by simp [Float64.lt]; norm_num⟩)

/-- Claim C3 fails as stated: with the one configured threshold 50 (in `[0, 100]`), the
table's thresholds are `[50, 100]`, and luminance 30 (in `[0, 100]`) reaches the fatal
branch. -/
theorem sentinel_does_not_cover_below_first_threshold :
    (∀ t ∈ [Float64.fin 50], inPercentRange t) ∧ inPercentRange (Float64.fin 30) ∧
    convertLuminance (Float64.fin 30) ([Float64.fin 50] ++ [Float64.fin 100])
        [{ R := 0, G := 0, B := 0, A := 0 }, { R := 0, G := 0, B := 0, A := 0 }] =
      Except.error Failure.luminanceOverThresholds := by
  refine ⟨?_, ?_, ?_⟩
  · simp [inPercentRange, Float64.le]; norm_num
  · simp [inPercentRange, Float64.le]; norm_num
  · simp [convertLuminance, convertLuminanceLoop, tierCond, Float64.lt, Float64.le, Float64.eq]
    norm_num

/-- Claim C4. For every table that `run` constructs, whatever the thresholds, luminance
zero is looked up to the first colour, `colors[0]`. -/
theorem zero_luminance_first_colour (parseFloat : String → Option Float64)
    (parseUint : String → Option ℕ) (t c : String) (thresholds : List Float64)
    (colors : List RGBA)
    (hbuilt : buildTable parseFloat parseUint t c = Except.ok (thresholds, colors)) :
    ∃ c0, colors[0]? = some c0 ∧
      convertLuminance (Float64.fin 0) thresholds colors = Except.ok c0 := by
  have h := buildTable_lengths hbuilt
  exact zero_lookup h.1 (by omega)

/-- The table of the default flags. -/
theorem zero_luminance_first_colour_witness :
    ∃ c0, [({ R := 0, G := 0, B := 0, A := 0 } : RGBA), { R := 255, G := 255, B := 255, A := 0 },
        { R := 255, G := 255, B := 255, A := 0 }][0]? = some c0 ∧
      convertLuminance (Float64.fin 0) [Float64.fin 0, Float64.fin 50, Float64.fin 100]
        [{ R := 0, G := 0, B := 0, A := 0 }, { R := 255, G := 255, B := 255, A := 0 },
          { R := 255, G := 255, B := 255, A := 0 }] = Except.ok c0 :=
  zero_luminance_first_colour parseFloatDigits parseUintHex32 "0,50" "000000,FFFFFF" _ _
    (buildTable_default parseFloatDigits parseUintHex32
      (by simp [parseFloatDigits, parseDecimalDigits])
      (by simp [parseFloatDigits, parseDecimalDigits]) (by decide) (by decide))

/-- Claim C5, as the code has it. In a table with thresholds in `[0, 100]` sorted
ascending, for every tier index `i` in `0..n-2` whose bounds differ,
`thresholds[i] < thresholds[i+1]`, the luminance `thresholds[i+1]` is looked up to
`colors[i]`. -/
theorem upper_bound_belongs_to_tier (thresholds : List Float64) (colors : List RGBA)
    (i : ℕ) (lo hi : Float64) (hsorted : sortedAscending thresholds)
    (hin : ∀ t ∈ thresholds, inPercentRange t) (hlen : colors.length = thresholds.length)
    (hlo : thresholds[i]? = some lo) (hhi : thresholds[i + 1]? = some hi)
    (hlt : Float64.lt lo hi) :
    ∃ c, colors[i]? = some c ∧ convertLuminance hi thresholds colors = Except.ok c :=
  upper_bound_lookup hsorted hin hlen hlo hhi hlt

/-- The table `[0, 50, 100]`, tier 1 and its upper bound 100. -/
theorem upper_bound_belongs_to_tier_witness :
    ∃ c, [({ R := 0, G := 0, B := 0, A := 0 } : RGBA), { R := 255, G := 255, B := 255, A := 0 },
        { R := 255, G := 255, B := 255, A := 0 }][1]? = some c ∧
      convertLuminance (Float64.fin 100) [Float64.fin 0, Float64.fin 50, Float64.fin 100]
        [{ R := 0, G := 0, B := 0, A := 0 }, { R := 255, G := 255, B := 255, A := 0 },
          { R := 255, G := 255, B := 255, A := 0 }] = Except.ok c :=
  upper_bound_belongs_to_tier [Float64.fin 0, Float64.fin 50, Float64.fin 100] _ 1
    (Float64.fin 50) (Float64.fin 100)
    (by simp [sortedAscending, Float64.le]; norm_num)
    (by simp [inPercentRange, Float64.le]; norm_num) (by simp) (by simp) (by simp)
    (by simp [Float64.lt]; norm_num)

/-- Claim C5 fails as stated: the thresholds `[0, 100, 100]` (flag `0,100` and the
sentinel) are sorted ascending, yet the upper bound 100 of tier 1 is looked up to
`colors[0]`, black, and not to `colors[1]`, white. -/
theorem upper_bound_of_empty_tier_goes_to_earlier_tier :
    sortedAscending [Float64.fin 0, Float64.fin 100, Float64.fin 100] ∧
    [Float64.fin 0, Float64.fin 100, Float64.fin 100][1 + 1]? = some (Float64.fin 100) ∧
    [({ R := 0, G := 0, B := 0, A := 0 } : RGBA), { R := 255, G := 255, B := 255, A := 0 },
        { R := 255, G := 255, B := 255, A := 0 }][1]? =
      some { R := 255, G := 255, B := 255, A := 0 } ∧
    convertLuminance (Float64.fin 100) [Float64.fin 0, Float64.fin 100, Float64.fin 100]
        [{ R := 0, G := 0, B := 0, A := 0 }, { R := 255, G := 255, B := 255, A := 0 },
          { R := 255, G := 255, B := 255, A := 0 }] =
      Except.ok { R := 0, G := 0, B := 0, A := 0 } ∧
    ({ R := 0, G := 0, B := 0, A := 0 } : RGBA) ≠ { R := 255, G := 255, B := 255, A := 0 } := by
  refine ⟨?_, by simp, by simp, ?_, by decide⟩
  · simp [sortedAscending, Float64.le]
  · simp [convertLuminance, convertLuminanceLoop, tierCond, Float64.lt, Float64.le, Float64.eq]

/-- Claim C6. Under the default flags (`0,50` and `000000,FFFFFF`, the four tokens
parsed to 0, 50, 0x000000 and 0xFFFFFF) the constructed table is thresholds
`[0, 50, 100]` with colours black, white, white, and every luminance in `[0, 100]` is
looked up to black `(0,0,0)` when it is at most 50 and to white `(255,255,255)` when
it is above 50; so 0 and 50 give black, 50.01 and 100 give white. -/
theorem default_configuration (parseFloat : String → Option Float64)
    (parseUint : String → Option ℕ)
    (h0 : parseFloat "0" = some (Float64.fin 0)) (h50 : parseFloat "50" = some (Float64.fin 50))
    (hblack : parseUint "000000" = some 0x000000)
    (hwhite : parseUint "FFFFFF" = some 0xFFFFFF) :
    buildTable parseFloat parseUint "0,50" "000000,FFFFFF" =
      Except.ok ([Float64.fin 0, Float64.fin 50, Float64.fin 100],
        [{ R := 0, G := 0, B := 0, A := 0 }, { R := 255, G := 255, B := 255, A := 0 },
          { R := 255, G := 255, B := 255, A := 0 }]) ∧
    (∀ l, inPercentRange l →
      convertLuminance l [Float64.fin 0, Float64.fin 50, Float64.fin 100]
          [{ R := 0, G := 0, B := 0, A := 0 }, { R := 255, G := 255, B := 255, A := 0 },
            { R := 255, G := 255, B := 255, A := 0 }] =
        Except.ok (if Float64.le l (Float64.fin 50) then { R := 0, G := 0, B := 0, A := 0 }
          else { R := 255, G := 255, B := 255, A := 0 })) ∧
    convertLuminance (Float64.fin 0) [Float64.fin 0, Float64.fin 50, Float64.fin 100]
        [{ R := 0, G := 0, B := 0, A := 0 }, { R := 255, G := 255, B := 255, A := 0 },
          { R := 255, G := 255, B := 255, A := 0 }] =
      Except.ok { R := 0, G := 0, B := 0, A := 0 } ∧
    convertLuminance (Float64.fin 50) [Float64.fin 0, Float64.fin 50, Float64.fin 100]
        [{ R := 0, G := 0, B := 0, A := 0 }, { R := 255, G := 255, B := 255, A := 0 },
          { R := 255, G := 255, B := 255, A := 0 }] =
      Except.ok { R := 0, G := 0, B := 0, A := 0 } ∧
    convertLuminance (Float64.fin (5001 / 100)) [Float64.fin 0, Float64.fin 50, Float64.fin 100]
        [{ R := 0, G := 0, B := 0, A := 0 }, { R := 255, G := 255, B := 255, A := 0 },
          { R := 255, G := 255, B := 255, A := 0 }] =
      Except.ok { R := 255, G := 255, B := 255, A := 0 } ∧
    convertLuminance (Float64.fin 100) [Float64.fin 0, Float64.fin 50, Float64.fin 100]
        [{ R := 0, G := 0, B := 0, A := 0 }, { R := 255, G := 255, B := 255, A := 0 },
          { R := 255, G := 255, B := 255, A := 0 }] =
      Except.ok { R := 255, G := 255, B := 255, A := 0 } := by
  refine ⟨buildTable_default parseFloat parseUint h0 h50 hblack hwhite, default_lookup, ?_, ?_,
    ?_, ?_⟩
  · rw [default_lookup _ (by simp [inPercentRange, Float64.le])]
    simp [Float64.le]
  · rw [default_lookup _ (by simp [inPercentRange, Float64.le]; norm_num)]
    simp [Float64.le]
  · rw [default_lookup _ (by simp [inPercentRange, Float64.le]; norm_num)]
    simp [Float64.le]
    norm_num
  · rw [default_lookup _ (by simp [inPercentRange, Float64.le])]
    simp [Float64.le]
    norm_num

/-- The default flags read by a hexadecimal and a decimal parser. -/
theorem default_configuration_witness :
    buildTable parseFloatDigits parseUintHex32 "0,50" "000000,FFFFFF" =
      Except.ok ([Float64.fin 0, Float64.fin 50, Float64.fin 100],
        [{ R := 0, G := 0, B := 0, A := 0 }, { R := 255, G := 255, B := 255, A := 0 },
          { R := 255, G := 255, B := 255, A := 0 }]) :=
  (default_configuration parseFloatDigits parseUintHex32
    (by simp [parseFloatDigits, parseDecimalDigits])
    (by simp [parseFloatDigits, parseDecimalDigits]) (by decide) (by decide)).1

/-- Claim C7. For a source image (bounds with `Min <= Max`) and a table on which no
pixel lookup fails, `convertImage` returns an image with exactly the source's bounds in
which, at every coordinate of the bounds, the pixel is
`convertLuminance(luminance(source pixel), thresholds, colors)`: each output pixel is
determined by its own input pixel and the table. -/
theorem convertImage_pixelwise (img : Image) (thresholds : List Float64)
    (colors : List RGBA)
    (hwidth : img.bounds.minX ≤ img.bounds.maxX) (hheight : img.bounds.minY ≤ img.bounds.maxY)
    (hok : ∀ x y, img.bounds.contains x y →
      ∃ c, convertLuminance (luminance (img.At x y)) thresholds colors = Except.ok c) :
    ∃ out, convertImage img thresholds colors = Except.ok out ∧ out.rect = img.bounds ∧
      ∀ x y, img.bounds.contains x y →
        convertLuminance (luminance (img.At x y)) thresholds colors =
          Except.ok (out.RGBAAt x y) :=
  convertImage_ok img thresholds colors hwidth hheight hok

/-- The 2x2 sample image (luminances 0, about 30, about 60 and about 100) under the
default table: the output has the same bounds and is black, black, white, white at
the matching coordinates. -/
theorem convertImage_pixelwise_witness :
    ∃ out, convertImage sampleImage [Float64.fin 0, Float64.fin 50, Float64.fin 100]
        [{ R := 0, G := 0, B := 0, A := 0 }, { R := 255, G := 255, B := 255, A := 0 },
          { R := 255, G := 255, B := 255, A := 0 }] = Except.ok out ∧
      out.rect = { minX := 0, minY := 0, maxX := 2, maxY := 2 } ∧
      out.RGBAAt 0 0 = { R := 0, G := 0, B := 0, A := 0 } ∧
      out.RGBAAt 1 0 = { R := 0, G := 0, B := 0, A := 0 } ∧
      out.RGBAAt 0 1 = { R := 255, G := 255, B := 255, A := 0 } ∧
      out.RGBAAt 1 1 = { R := 255, G := 255, B := 255, A := 0 } := by
  obtain ⟨out, h1, h2, h3⟩ := convertImage_pixelwise sampleImage
    [Float64.fin 0, Float64.fin 50, Float64.fin 100]
    [{ R := 0, G := 0, B := 0, A := 0 }, { R := 255, G := 255, B := 255, A := 0 },
      { R := 255, G := 255, B := 255, A := 0 }] (by decide) (by decide) (by
    intro x y _
    have hs : (sampleImage.At x y).r ≤ 65535 ∧ (sampleImage.At x y).g ≤ 65535 ∧
        (sampleImage.At x y).b ≤ 65535 := by
      unfold sampleImage grey
      simp only
      split_ifs <;> simp
    obtain ⟨q, hq, h0, h1⟩ := luminance_bounds _ hs.1 hs.2.1 hs.2.2
    have hr : inPercentRange (luminance (sampleImage.At x y)) :=
      (inPercentRange_iff _).2 ⟨q, hq, h0, by linarith⟩
    exact ⟨_, default_lookup _ hr⟩)
  have a00 : sampleImage.At 0 0 = grey 0 := by simp [sampleImage]
  have a10 : sampleImage.At 1 0 = grey 19661 := by simp [sampleImage]
  have a01 : sampleImage.At 0 1 = grey 39322 := by simp [sampleImage]
  have a11 : sampleImage.At 1 1 = grey 65535 := by simp [sampleImage]
  have p00 := h3 0 0 (by decide)
  have p10 := h3 1 0 (by decide)
  have p01 := h3 0 1 (by decide)
  have p11 := h3 1 1 (by decide)
  rw [a00, luminance_grey_black,
    default_lookup _ (by simp [inPercentRange, Float64.le])] at p00
  rw [a10, luminance_grey_dark,
    default_lookup _ (by simp [inPercentRange, Float64.le]; norm_num)] at p10
  rw [a01, luminance_grey_light,
    default_lookup _ (by simp [inPercentRange, Float64.le]; norm_num)] at p01
  rw [a11, grey, luminance_white,
    default_lookup _ (by simp [inPercentRange, Float64.le]; norm_num)] at p11
  refine ⟨out, h1, h2, ?_, ?_, ?_, ?_⟩
  · injection p00 with p00
    rw [← p00]
    simp [Float64.le]
  · injection p10 with p10
    rw [← p10]
    simp [Float64.le]
    norm_num
  · injection p01 with p01
    rw [← p01]
    simp [Float64.le]
    norm_num
  · injection p11 with p11
    rw [← p11]
    simp [Float64.le]
    norm_num

/-- Claim C8, evaluated at the pixel with every colour sample at full intensity,
65535: for any alpha the luminance is `7036767043583999 / 2 ^ 46`, about 99.9985, which
is below 100 (each channel is scaled by `/65536`, not by the full intensity 65535). -/
theorem luminance_full_intensity (a : ℕ) :
    luminance { r := 65535, g := 65535, b := 65535, a := a } =
      Float64.fin (7036767043583999 / 70368744177664) ∧
    (7036767043583999 / 70368744177664 : ℚ) < 100 ∧
    luminance { r := 65535, g := 65535, b := 65535, a := a } ≠ Float64.fin 100 := by
  refine ⟨luminance_white a, by norm_num, ?_⟩
  rw [luminance_white a]
  intro h
  injection h with h
  norm_num at h

/-- Claim C9. For every pixel whose R, G, B samples are each in `0..65535`, the
luminance is a finite value in the closed interval `[0, 100]`. -/
theorem luminance_in_range (c : Color) (hr : c.r ≤ 65535) (hg : c.g ≤ 65535)
    (hb : c.b ≤ 65535) :
    (∃ q : ℚ, luminance c = Float64.fin q ∧ 0 ≤ q ∧ q ≤ 100) ∧ inPercentRange (luminance c) := by
  obtain ⟨q, hq, h0, h1⟩ := luminance_bounds c hr hg hb
  have h100 : q ≤ 100 := by linarith
  exact ⟨⟨q, hq, h0, h100⟩, (inPercentRange_iff _).2 ⟨q, hq, h0, h100⟩⟩

/-- The opaque pixel with samples 65535, 32768, 0. -/
theorem luminance_in_range_witness :
    (∃ q : ℚ, luminance { r := 65535, g := 32768, b := 0, a := 65535 } = Float64.fin q ∧
      0 ≤ q ∧ q ≤ 100) ∧
    inPercentRange (luminance { r := 65535, g := 32768, b := 0, a := 65535 }) :=
  luminance_in_range { r := 65535, g := 32768, b := 0, a := 65535 } (by decide) (by decide)
    (by decide)

/-- Claim C10. For every 24-bit value `h`, `hexToColor h` has R = bits 16-23
(`h / 65536 mod 256`), G = bits 8-15 (`h / 256 mod 256`) and B = bits 0-7
(`h mod 256`). -/
theorem hexToColor_channels (h : ℕ) (_h24 : h ≤ 0xFFFFFF) :
    (hexToColor h).R = h / 65536 % 256 ∧ (hexToColor h).G = h / 256 % 256 ∧
      (hexToColor h).B = h % 256 := by
  rw [hexToColor_eq h]
  exact ⟨rfl, rfl, rfl⟩

/-- The value 0xFF8000 decodes to R = 255, G = 128, B = 0. -/
theorem hexToColor_channels_witness :
    (hexToColor 0xFF8000).R = 255 ∧ (hexToColor 0xFF8000).G = 128 ∧
      (hexToColor 0xFF8000).B = 0 :=
  hexToColor_channels 0xFF8000 (by decide)

/-- Claim C11. Decoding round-trips: for every 24-bit value `h`, re-encoding the
channels of `hexToColor h` as `R*65536 + G*256 + B` gives `h` back, so decoding is
injective on 24-bit values. -/
theorem hexToColor_round_trip (h : ℕ) (h24 : h ≤ 0xFFFFFF) :
    (hexToColor h).R * 65536 + (hexToColor h).G * 256 + (hexToColor h).B = h ∧
    ∀ h2, h2 ≤ 0xFFFFFF → hexToColor h2 = hexToColor h → h2 = h :=
  ⟨hexToColor_encode h24, fun _ b e => hexToColor_injective b h24 e⟩

/-- The value 0xFF8000: its channels 255, 128, 0 re-encode to 0xFF8000. -/
theorem hexToColor_round_trip_witness :
    (hexToColor 0xFF8000).R * 65536 + (hexToColor 0xFF8000).G * 256 +
        (hexToColor 0xFF8000).B = 0xFF8000 :=
  (hexToColor_round_trip 0xFF8000 (by decide)).1

/-- Claim C12, evaluated at the threshold flag `NaN`, which `strconv.ParseFloat` reads
as a NaN: NaN is not in `[0, 100]`, yet the table is constructed, with thresholds
`[NaN, 100]`, because neither `th < 0.0` nor `th > 100.0` holds of a NaN. In general the
construction fails with the invalid-threshold error exactly when some token does not
parse or parses to a value below 0 or above 100. -/
theorem nan_threshold_accepted (parseFloat : String → Option Float64)
    (parseUint : String → Option ℕ) (hnan : parseFloat "NaN" = some Float64.nan)
    (hblack : parseUint "000000" = some 0x000000) :
    ¬ inPercentRange Float64.nan ∧
    buildTable parseFloat parseUint "NaN" "000000" =
      Except.ok ([Float64.nan, Float64.fin 100],
        [{ R := 0, G := 0, B := 0, A := 0 }, { R := 0, G := 0, B := 0, A := 0 }]) ∧
    (∀ t c, (∃ tok, buildTable parseFloat parseUint t c =
        Except.error (Failure.invalidThreshold tok)) ↔
      ∃ tok ∈ split t ',', parseFloat tok = none ∨ ∃ th, parseFloat tok = some th ∧
        (Float64.lt th (Float64.fin 0) ∨ Float64.lt (Float64.fin 100) th)) := by
  refine ⟨by simp [inPercentRange, Float64.le], ?_,
    fun t c => buildTable_invalidThreshold_iff parseFloat parseUint t c⟩
  have hs1 : split "NaN" ',' = ["NaN"] := by decide
  have hs2 : split "000000" ',' = ["000000"] := by decide
  have hc1 : hexToColor (0 % 2 ^ 32) = { R := 0, G := 0, B := 0, A := 0 } := by decide
  have hT : parseThresholds parseFloat ["NaN"] [] = Except.ok [Float64.nan] := by
    simp [parseThresholds, hnan, Float64.lt]
  have hC : parseColors parseUint ["000000"] [] =
      Except.ok [{ R := 0, G := 0, B := 0, A := 0 }] := by
    simp only [parseColors, hblack, hc1]
    simp
  unfold buildTable
  rw [hs1, hs2, hT, hC]
  rfl

/-- The flag `NaN` read by a parser that knows the word. -/
theorem nan_threshold_accepted_witness :
    buildTable parseFloatWords parseUintHex32 "NaN" "000000" =
      Except.ok ([Float64.nan, Float64.fin 100],
        [{ R := 0, G := 0, B := 0, A := 0 }, { R := 0, G := 0, B := 0, A := 0 }]) :=
  (nan_threshold_accepted parseFloatWords parseUintHex32 (by decide) (by decide)).2.1

/-- Claim C13. Given thresholds that passed the first loop, the construction fails with
the invalid-colour error exactly when some colour token does not parse as an unsigned
hexadecimal integer or parses to a value above 0xFFFFFF; when every token parses to a
value in `[0x000000, 0xFFFFFF]` the table is constructed and every token is decoded
with `hexToColor`. -/
theorem colour_validation (parseFloat : String → Option Float64)
    (parseUint : String → Option ℕ) (t c : String) (thresholds : List Float64)
    (hthresholds : parseThresholds parseFloat (split t ',') [] = Except.ok thresholds) :
    ((∃ tok, buildTable parseFloat parseUint t c =
        Except.error (Failure.invalidColor tok)) ↔
      ∃ tok ∈ split c ',', parseUint tok = none ∨
        ∃ h, parseUint tok = some h ∧ 0xFFFFFF < h) ∧
    ((∀ tok ∈ split c ',', ∃ h, parseUint tok = some h ∧ h ≤ 0xFFFFFF) →
      ∃ decoded last,
        List.Forall₂ (fun tok col => ∃ h, parseUint tok = some h ∧ col = hexToColor h)
          (split c ',') decoded ∧
        buildTable parseFloat parseUint t c =
          Except.ok (thresholds ++ [Float64.fin 100], decoded ++ [last])) := by
  refine ⟨buildTable_invalidColor_iff parseFloat parseUint t c thresholds hthresholds, ?_⟩
  intro hC
  have hT := parseThresholds_ok_accepted parseFloat _ _ _ hthresholds
  obtain ⟨parsed, decoded, last, -, hd, -, hpr, hb, -, -⟩ :=
    buildTable_of_accepted parseFloat parseUint t c hT hC
  rw [hthresholds] at hpr
  cases hpr
  exact ⟨decoded, last, hd, hb⟩

/-- The default thresholds with the colour flag `000000,GGGGGG`: the second token is
no hexadecimal number, and the construction fails with the invalid-colour error. -/
theorem colour_validation_witness :
    ∃ tok, buildTable parseFloatDigits parseUintHex32 "0,50" "000000,GGGGGG" =
      Except.error (Failure.invalidColor tok) :=
  (colour_validation parseFloatDigits parseUintHex32 "0,50" "000000,GGGGGG"
    [Float64.fin 0, Float64.fin 50]
    (by
      have hs : split "0,50" ',' = ["0", "50"] := by decide
      rw [hs]
      simp [parseThresholds, parseFloatDigits, parseDecimalDigits, Float64.lt]
      norm_num)).1.2
    ⟨"GGGGGG", by decide, Or.inl (by decide)⟩

/-- Claim C14. For a valid configuration (every threshold token parses to a value in
`[0, 100]`, every colour token to a value up to 0xFFFFFF) the constructed threshold list
is the parsed thresholds in order followed by the sentinel 100, of length `n + 1`, and
the colour list is the decoded colours in order followed by a copy of the last decoded
colour, of length `m + 1`. Every table the construction returns has this shape. -/
theorem table_shape (parseFloat : String → Option Float64) (parseUint : String → Option ℕ)
    (t c : String)
    (hthresholds : ∀ tok ∈ split t ',', ∃ th, parseFloat tok = some th ∧ inPercentRange th)
    (hcolors : ∀ tok ∈ split c ',', ∃ h, parseUint tok = some h ∧ h ≤ 0xFFFFFF) :
    (∃ parsed decoded last,
      List.Forall₂ (fun tok th => parseFloat tok = some th) (split t ',') parsed ∧
      List.Forall₂ (fun tok col => ∃ h, parseUint tok = some h ∧ col = hexToColor h)
        (split c ',') decoded ∧
      decoded.getLast? = some last ∧
      buildTable parseFloat parseUint t c =
        Except.ok (parsed ++ [Float64.fin 100], decoded ++ [last]) ∧
      (parsed ++ [Float64.fin 100]).length = (split t ',').length + 1 ∧
      (decoded ++ [last]).length = (split c ',').length + 1) ∧
    (∀ t2 c2 ths cols, buildTable parseFloat parseUint t2 c2 = Except.ok (ths, cols) →
      ∃ parsed decoded last,
        List.Forall₂ (fun tok th => parseFloat tok = some th) (split t2 ',') parsed ∧
        List.Forall₂ (fun tok col => ∃ h, parseUint tok = some h ∧ col = hexToColor h)
          (split c2 ',') decoded ∧
        decoded.getLast? = some last ∧
        ths = parsed ++ [Float64.fin 100] ∧ cols = decoded ++ [last]) := by
  constructor
  · obtain ⟨parsed, decoded, last, hp, hd, hl, -, hb, h1, h2⟩ :=
      buildTable_of_accepted parseFloat parseUint t c
        (fun tok htok => by
          obtain ⟨th, hp, hr⟩ := hthresholds tok htok
          obtain ⟨q, rfl, h0, h100⟩ := (inPercentRange_iff th).1 hr
          refine ⟨_, hp, ?_, ?_⟩ <;> simp only [Float64.lt, not_lt] <;> assumption)
        hcolors
    exact ⟨parsed, decoded, last, hp, hd, hl, hb, h1, h2⟩
  · intro t2 c2 ths cols hb
    rcases buildTable_cases parseFloat parseUint t2 c2 with ⟨e, -, hb2⟩ | ⟨ths2, e, -, -, hb2⟩ |
      ⟨ths2, cols2, last, hT, hC, -, -⟩
    · rw [hb2] at hb; cases hb
    · rw [hb2] at hb; cases hb
    · obtain ⟨parsed, decoded, last2, hp, hd, hl, -, hb3, -, -⟩ :=
        buildTable_of_accepted parseFloat parseUint t2 c2
          (parseThresholds_ok_accepted parseFloat _ _ _ hT)
          (parseColors_ok_accepted parseUint _ _ _ hC)
      rw [hb3] at hb
      simp only [Except.ok.injEq, Prod.mk.injEq] at hb
      exact ⟨parsed, decoded, last2, hp, hd, hl, hb.1.symm, hb.2.symm⟩

/-- The default flags: two threshold tokens give three thresholds, two colour tokens
three colours. -/
theorem table_shape_witness :
    ∃ parsed decoded last,
      List.Forall₂ (fun tok th => parseFloatDigits tok = some th) (split "0,50" ',') parsed ∧
      List.Forall₂ (fun tok col => ∃ h, parseUintHex32 tok = some h ∧ col = hexToColor h)
        (split "000000,FFFFFF" ',') decoded ∧
      decoded.getLast? = some last ∧
      buildTable parseFloatDigits parseUintHex32 "0,50" "000000,FFFFFF" =
        Except.ok (parsed ++ [Float64.fin 100], decoded ++ [last]) ∧
      (parsed ++ [Float64.fin 100]).length = (split "0,50" ',').length + 1 ∧
      (decoded ++ [last]).length = (split "000000,FFFFFF" ',').length + 1 :=
  (table_shape parseFloatDigits parseUintHex32 "0,50" "000000,FFFFFF"
    (by
      have hs : split "0,50" ',' = ["0", "50"] := by decide
      rw [hs]
      intro tok htok
      simp only [List.mem_cons, List.mem_singleton, List.not_mem_nil, or_false] at htok
      rcases htok with rfl | rfl
      · exact ⟨Float64.fin 0, by simp [parseFloatDigits, parseDecimalDigits],
          by simp [inPercentRange, Float64.le]⟩
      · exact ⟨Float64.fin 50, by simp [parseFloatDigits, parseDecimalDigits],
          by simp [inPercentRange, Float64.le]; norm_num⟩)
    (by
      have hs : split "000000,FFFFFF" ',' = ["000000", "FFFFFF"] := by decide
      rw [hs]
      intro tok htok
      simp only [List.mem_cons, List.mem_singleton, List.not_mem_nil, or_false] at htok
      rcases htok with rfl | rfl
      · exact ⟨0, by decide, by decide⟩
      · exact ⟨0xFFFFFF, by decide, by decide⟩)).1

/-- Claim C15, as the code has it. Under a table that `run` constructs, every pixel
`convertImage` writes has alpha 0 (`hexToColor` leaves the alpha field unset and the
pixel is stored as it is), whatever the source pixel's alpha: the written pixel is the
lookup of the luminance of the source's R, G, B samples with any alpha in their
place, so none of the source alpha is carried over. -/
theorem output_alpha_unset (parseFloat : String → Option Float64)
    (parseUint : String → Option ℕ) (t c : String) (thresholds : List Float64)
    (colors : List RGBA) (img : Image) (out : RGBAImage)
    (hbuilt : buildTable parseFloat parseUint t c = Except.ok (thresholds, colors))
    (hwidth : img.bounds.minX ≤ img.bounds.maxX) (hheight : img.bounds.minY ≤ img.bounds.maxY)
    (hconv : convertImage img thresholds colors = Except.ok out) :
    ∀ x y, img.bounds.contains x y →
      (out.RGBAAt x y).A = 0 ∧
      ∀ a : ℕ, convertLuminance
          (luminance { r := (img.At x y).r, g := (img.At x y).g, b := (img.At x y).b, a := a })
          thresholds colors = Except.ok (out.RGBAAt x y) := by
  intro x y hc
  have hpix := (convertImage_ok_inv hwidth hheight hconv).2 x y hc
  constructor
  · obtain ⟨i, -, -, hi⟩ := convertLuminance_ok_index hpix
    exact buildTable_alpha hbuilt _ (List.getElem?_mem hi)
  · intro a
    exact hpix

/-- The 2x2 sample image under the default flags. -/
theorem output_alpha_unset_witness :
    ∃ out, convertImage sampleImage [Float64.fin 0, Float64.fin 50, Float64.fin 100]
        [{ R := 0, G := 0, B := 0, A := 0 }, { R := 255, G := 255, B := 255, A := 0 },
          { R := 255, G := 255, B := 255, A := 0 }] = Except.ok out ∧
      ∀ x y, sampleImage.bounds.contains x y →
        (out.RGBAAt x y).A = 0 ∧
        ∀ a : ℕ, convertLuminance
            (luminance
              { r := (sampleImage.At x y).r, g := (sampleImage.At x y).g,
                b := (sampleImage.At x y).b, a := a })
            [Float64.fin 0, Float64.fin 50, Float64.fin 100]
            [{ R := 0, G := 0, B := 0, A := 0 }, { R := 255, G := 255, B := 255, A := 0 },
              { R := 255, G := 255, B := 255, A := 0 }] = Except.ok (out.RGBAAt x y) := by
  obtain ⟨out, h1, -, -⟩ := convertImage_ok sampleImage
    [Float64.fin 0, Float64.fin 50, Float64.fin 100]
    [{ R := 0, G := 0, B := 0, A := 0 }, { R := 255, G := 255, B := 255, A := 0 },
      { R := 255, G := 255, B := 255, A := 0 }] (by decide) (by decide) (by
    intro x y _
    have hs : (sampleImage.At x y).r ≤ 65535 ∧ (sampleImage.At x y).g ≤ 65535 ∧
        (sampleImage.At x y).b ≤ 65535 := by
      unfold sampleImage grey
      simp only
      split_ifs <;> simp
    obtain ⟨q, hq, h0, h1⟩ := luminance_bounds _ hs.1 hs.2.1 hs.2.2
    exact ⟨_, default_lookup _ ((inPercentRange_iff _).2 ⟨q, hq, h0, by linarith⟩)⟩)
  exact ⟨out, h1, output_alpha_unset parseFloatDigits parseUintHex32 "0,50" "000000,FFFFFF"
    _ _ sampleImage out
    (buildTable_default parseFloatDigits parseUintHex32
      (by simp [parseFloatDigits, parseDecimalDigits])
      (by simp [parseFloatDigits, parseDecimalDigits]) (by decide) (by decide))
    (by decide) (by decide) h1⟩

/-- Claim C15 fails as stated: in the 2x2 sample image, whose pixels are fully opaque,
under the default table, the pixel written at `(0, 0)` is `(0, 0, 0)` with alpha 0,
not 255. -/
theorem output_alpha_is_not_255 :
    (sampleImage.At 0 0).a = 65535 ∧
    ∃ out, convertImage sampleImage [Float64.fin 0, Float64.fin 50, Float64.fin 100]
        [{ R := 0, G := 0, B := 0, A := 0 }, { R := 255, G := 255, B := 255, A := 0 },
          { R := 255, G := 255, B := 255, A := 0 }] = Except.ok out ∧
      out.RGBAAt 0 0 = { R := 0, G := 0, B := 0, A := 0 } ∧ (out.RGBAAt 0 0).A ≠ 255 := by
  refine ⟨by simp [sampleImage, grey], ?_⟩
  obtain ⟨out, h1, -, h3⟩ := convertImage_ok sampleImage
    [Float64.fin 0, Float64.fin 50, Float64.fin 100]
    [{ R := 0, G := 0, B := 0, A := 0 }, { R := 255, G := 255, B := 255, A := 0 },
      { R := 255, G := 255, B := 255, A := 0 }] (by decide) (by decide) (by
    intro x y _
    have hs : (sampleImage.At x y).r ≤ 65535 ∧ (sampleImage.At x y).g ≤ 65535 ∧
        (sampleImage.At x y).b ≤ 65535 := by
      unfold sampleImage grey
      simp only
      split_ifs <;> simp
    obtain ⟨q, hq, h0, h1⟩ := luminance_bounds _ hs.1 hs.2.1 hs.2.2
    exact ⟨_, default_lookup _ ((inPercentRange_iff _).2 ⟨q, hq, h0, by linarith⟩)⟩)
  have a00 : sampleImage.At 0 0 = grey 0 := by simp [sampleImage]
  have p00 := h3 0 0 (by decide)
  rw [a00, luminance_grey_black,
    default_lookup _ (by simp [inPercentRange, Float64.le])] at p00
  injection p00 with p00
  have hpix : out.RGBAAt 0 0 = { R := 0, G := 0, B := 0, A := 0 } := by
    rw [← p00]
    simp [Float64.le]
  exact ⟨out, h1, hpix, by rw [hpix]; decide⟩

/-- Claim C16, as the code has it. When the configured colour list is two or more
entries shorter than the configured threshold list (thresholds in `[0, 100]`, sorted
ascending), every luminance above the last configured threshold and at most 100 is
looked up past the end of the colour list; when the colour list is at most one entry
shorter than the threshold list, or longer, no lookup is out of bounds. -/
theorem colour_index_error_when_two_short (configured : List Float64)
    (configuredColors : List RGBA) (last : RGBA) (lo l : Float64)
    (hsorted : sortedAscending (configured ++ [Float64.fin 100]))
    (hin : ∀ t ∈ configured, inPercentRange t) (hlast : configured.getLast? = some lo)
    (hlt : Float64.lt lo l) (hle : Float64.le l (Float64.fin 100))
    (hlen : configuredColors.length + 2 ≤ configured.length) :
    convertLuminance l (configured ++ [Float64.fin 100]) (configuredColors ++ [last]) =
      Except.error Failure.indexOutOfRange ∧
    (∀ (ts : List Float64) (cs : List RGBA) (s : RGBA) (l2 : Float64),
      ts.length ≤ cs.length + 1 →
      convertLuminance l2 (ts ++ [Float64.fin 100]) (cs ++ [s]) ≠
        Except.error Failure.indexOutOfRange) :=
  ⟨short_colours_panic hsorted hin hlast hlt hle hlen,
    fun ts cs s l2 h => convertLuminance_no_panic l2 _ _ (by simp; omega)⟩

/-- Three configured thresholds `0, 25, 50`, one configured colour, luminance 60. -/
theorem colour_index_error_when_two_short_witness :
    convertLuminance (Float64.fin 60)
        ([Float64.fin 0, Float64.fin 25, Float64.fin 50] ++ [Float64.fin 100])
        ([{ R := 0, G := 0, B := 0, A := 0 }] ++ [{ R := 0, G := 0, B := 0, A := 0 }]) =
      Except.error Failure.indexOutOfRange :=
  (colour_index_error_when_two_short [Float64.fin 0, Float64.fin 25, Float64.fin 50]
    [{ R := 0, G := 0, B := 0, A := 0 }] { R := 0, G := 0, B := 0, A := 0 }
    (Float64.fin 50) (Float64.fin 60)
    (by simp [sortedAscending, Float64.le]; norm_num)
    (by simp [inPercentRange, Float64.le]; norm_num) (by simp)
    (by simp [Float64.lt]; norm_num) (by simp [Float64.le]; norm_num) (by simp)).1

/-- Claim C16 fails as stated: two configured thresholds `0, 50` with three configured
colours, or with one, are lists of different lengths, yet no luminance is looked up out
of bounds. -/
theorem length_mismatch_without_index_error :
    [Float64.fin 0, Float64.fin 50].length ≠
      [({ R := 0, G := 0, B := 0, A := 0 } : RGBA), { R := 255, G := 255, B := 255, A := 0 },
        { R := 255, G := 0, B := 0, A := 0 }].length ∧
    (∀ l, convertLuminance l ([Float64.fin 0, Float64.fin 50] ++ [Float64.fin 100])
        ([{ R := 0, G := 0, B := 0, A := 0 }, { R := 255, G := 255, B := 255, A := 0 },
          { R := 255, G := 0, B := 0, A := 0 }] ++ [{ R := 255, G := 0, B := 0, A := 0 }]) ≠
      Except.error Failure.indexOutOfRange) ∧
    [Float64.fin 0, Float64.fin 50].length ≠
      [({ R := 0, G := 0, B := 0, A := 0 } : RGBA)].length ∧
    (∀ l, convertLuminance l ([Float64.fin 0, Float64.fin 50] ++ [Float64.fin 100])
        ([{ R := 0, G := 0, B := 0, A := 0 }] ++ [{ R := 0, G := 0, B := 0, A := 0 }]) ≠
      Except.error Failure.indexOutOfRange) :=
  ⟨by decide, fun l => convertLuminance_no_panic l _ _ (by simp), by decide,
    fun l => convertLuminance_no_panic l _ _ (by simp)⟩

/-- Claim C17. `convertLuminance` only reads colour indices `0..len(thresholds)-2`:
colour lists that agree on those indices give the same result; a returned colour is the
entry at such an index, so with as many colours as thresholds the entry at the last
index is never the one returned and may be replaced without effect; and with
`len(colors) >= len(thresholds) - 1` no lookup is out of bounds. -/
theorem convertLuminance_reads_tier_colours (l : Float64) (thresholds : List Float64) :
    (∀ colors1 colors2 : List RGBA,
      (∀ i, i + 1 < thresholds.length → colors1[i]? = colors2[i]?) →
      convertLuminance l thresholds colors1 = convertLuminance l thresholds colors2) ∧
    (∀ (colors : List RGBA) (c : RGBA), convertLuminance l thresholds colors = Except.ok c →
      ∃ i, selectedTier l thresholds = some i ∧ i + 1 < thresholds.length ∧
        colors[i]? = some c) ∧
    (∀ (colors : List RGBA) (s1 s2 : RGBA), colors.length + 1 = thresholds.length →
      convertLuminance l thresholds (colors ++ [s1]) =
        convertLuminance l thresholds (colors ++ [s2])) ∧
    (∀ colors : List RGBA, thresholds.length - 1 ≤ colors.length →
      convertLuminance l thresholds colors ≠ Except.error Failure.indexOutOfRange) := by
  refine ⟨fun c1 c2 h => convertLuminance_congr l thresholds c1 c2 h,
    fun colors c h => convertLuminance_ok_index h, ?_,
    fun colors h => convertLuminance_no_panic l thresholds colors h⟩
  intro colors s1 s2 hlen
  apply convertLuminance_congr
  intro i hi
  rw [List.getElem?_append_left (by omega), List.getElem?_append_left (by omega)]

/-- Luminance 100 in the default table: white comes from index 1, and the sentinel
colour at index 2 may be any colour. -/
theorem convertLuminance_reads_tier_colours_witness :
    convertLuminance (Float64.fin 100) [Float64.fin 0, Float64.fin 50, Float64.fin 100]
        ([{ R := 0, G := 0, B := 0, A := 0 }, { R := 255, G := 255, B := 255, A := 0 }] ++
          [{ R := 255, G := 255, B := 255, A := 0 }]) =
      convertLuminance (Float64.fin 100) [Float64.fin 0, Float64.fin 50, Float64.fin 100]
        ([{ R := 0, G := 0, B := 0, A := 0 }, { R := 255, G := 255, B := 255, A := 0 }] ++
          [{ R := 1, G := 2, B := 3, A := 4 }]) :=
  (convertLuminance_reads_tier_colours (Float64.fin 100)
    [Float64.fin 0, Float64.fin 50, Float64.fin 100]).2.2.1 _ _ _ (by simp)

/-- Claim C18, as the code has it. Coverage needs no sorting: for a threshold list of
length at least 2 in any order, none of its entries a NaN, and a luminance `l` that is
zero, or above the first threshold and at most the last one, some tier index `i` in
`0..n-2` has `thresholds[i] < l <= thresholds[i+1]` or `l == 0`, and `convertLuminance`
does not reach the fatal branch. -/
theorem unsorted_thresholds_cover (thresholds : List Float64) (l : Float64)
    (hlen : 2 ≤ thresholds.length) (hnan : ∀ t ∈ thresholds, t ≠ Float64.nan)
    (hl : Float64.eq l (Float64.fin 0) ∨
      ∃ t0 tz, thresholds.head? = some t0 ∧ thresholds.getLast? = some tz ∧
        Float64.lt t0 l ∧ Float64.le l tz) :
    (∃ i, i + 1 < thresholds.length ∧ tierMatches l thresholds i) ∧
    ∀ colors : List RGBA,
      convertLuminance l thresholds colors ≠ Except.error Failure.luminanceOverThresholds := by
  obtain ⟨i, hm⟩ := unsorted_covers hlen hnan hl
  refine ⟨⟨i, tierMatches_lt hm, hm⟩, fun colors => ?_⟩
  rw [Ne, convertLuminance_fatal_iff]
  exact fun hno => hno ⟨i, hm⟩

/-- The unsorted thresholds `[0, 80, 30, 100]` and luminance 50. -/
theorem unsorted_thresholds_cover_witness :
    (∃ i, i + 1 < [Float64.fin 0, Float64.fin 80, Float64.fin 30, Float64.fin 100].length ∧
      tierMatches (Float64.fin 50)
        [Float64.fin 0, Float64.fin 80, Float64.fin 30, Float64.fin 100] i) ∧
    ∀ colors : List RGBA,
      convertLuminance (Float64.fin 50)
          [Float64.fin 0, Float64.fin 80, Float64.fin 30, Float64.fin 100] colors ≠
        Except.error Failure.luminanceOverThresholds :=
  unsorted_thresholds_cover [Float64.fin 0, Float64.fin 80, Float64.fin 30, Float64.fin 100]
    (Float64.fin 50) (by simp) (by simp)
    (Or.inr ⟨Float64.fin 0, Float64.fin 100, by simp, by simp,
      by simp [Float64.lt], by simp [Float64.le]; norm_num⟩)

/-- Claim C18 fails as stated: the thresholds `[0, NaN, 100]` (flag `0,NaN` and the
sentinel) have length 3, luminance 50 is above the first and at most the last, yet no
tier matches and the lookup ends in the fatal branch. -/
theorem nan_threshold_breaks_coverage :
    2 ≤ [Float64.fin 0, Float64.nan, Float64.fin 100].length ∧
    Float64.lt (Float64.fin 0) (Float64.fin 50) ∧
    Float64.le (Float64.fin 50) (Float64.fin 100) ∧
    (¬ ∃ i, tierMatches (Float64.fin 50) [Float64.fin 0, Float64.nan, Float64.fin 100] i) ∧
    convertLuminance (Float64.fin 50) [Float64.fin 0, Float64.nan, Float64.fin 100]
        [{ R := 0, G := 0, B := 0, A := 0 }, { R := 255, G := 255, B := 255, A := 0 },
          { R := 255, G := 255, B := 255, A := 0 }] =
      Except.error Failure.luminanceOverThresholds := by
  have hf : convertLuminance (Float64.fin 50) [Float64.fin 0, Float64.nan, Float64.fin 100]
      [{ R := 0, G := 0, B := 0, A := 0 }, { R := 255, G := 255, B := 255, A := 0 },
        { R := 255, G := 255, B := 255, A := 0 }] =
      Except.error Failure.luminanceOverThresholds := by
    simp [convertLuminance, convertLuminanceLoop, tierCond, Float64.lt, Float64.le, Float64.eq]
  refine ⟨by simp, by simp [Float64.lt], by simp [Float64.le]; norm_num, ?_, hf⟩
  exact (convertLuminance_fatal_iff _ _ _).1 hf

/-- Claim C19. For every threshold list sorted ascending with no entry below 0 (`run`
admits no other: it rejects a threshold with `th < 0.0`), the tier index selected by
`convertLuminance` is monotone in the luminance: if `l1 <= l2` and both lookups succeed,
the index selected for `l1` is at most the index selected for `l2`. -/
theorem selected_tier_monotone (thresholds : List Float64) (colors : List RGBA)
    (l1 l2 : Float64) (c1 c2 : RGBA) (hsorted : sortedAscending thresholds)
    (hthresholds : ∀ t ∈ thresholds, ¬ Float64.lt t (Float64.fin 0))
    (hle : Float64.le l1 l2)
    (h1 : convertLuminance l1 thresholds colors = Except.ok c1)
    (h2 : convertLuminance l2 thresholds colors = Except.ok c2) :
    ∃ i1 i2, selectedTier l1 thresholds = some i1 ∧ selectedTier l2 thresholds = some i2 ∧
      colors[i1]? = some c1 ∧ colors[i2]? = some c2 ∧ i1 ≤ i2 := by
  obtain ⟨i1, s1, -, e1⟩ := convertLuminance_ok_index h1
  obtain ⟨i2, s2, -, e2⟩ := convertLuminance_ok_index h2
  exact ⟨i1, i2, s1, s2, e1, e2, selectedTier_mono_of_thresholds hsorted hthresholds hle s1 s2⟩

/-- Luminances 30 and 60 in the default table: tiers 0 and 1. -/
theorem selected_tier_monotone_witness :
    ∃ i1 i2,
      selectedTier (Float64.fin 30) [Float64.fin 0, Float64.fin 50, Float64.fin 100] = some i1 ∧
      selectedTier (Float64.fin 60) [Float64.fin 0, Float64.fin 50, Float64.fin 100] = some i2 ∧
      [({ R := 0, G := 0, B := 0, A := 0 } : RGBA), { R := 255, G := 255, B := 255, A := 0 },
          { R := 255, G := 255, B := 255, A := 0 }][i1]? = some { R := 0, G := 0, B := 0, A := 0 } ∧
      [({ R := 0, G := 0, B := 0, A := 0 } : RGBA), { R := 255, G := 255, B := 255, A := 0 },
          { R := 255, G := 255, B := 255, A := 0 }][i2]? =
        some { R := 255, G := 255, B := 255, A := 0 } ∧
      i1 ≤ i2 :=
  selected_tier_monotone [Float64.fin 0, Float64.fin 50, Float64.fin 100]
    [{ R := 0, G := 0, B := 0, A := 0 }, { R := 255, G := 255, B := 255, A := 0 },
      { R := 255, G := 255, B := 255, A := 0 }] (Float64.fin 30) (Float64.fin 60) _ _
    (by simp [sortedAscending, Float64.le]; norm_num)
    (by simp [Float64.lt])
    (by simp [Float64.le]; norm_num)
    (by
      rw [default_lookup _ (by simp [inPercentRange, Float64.le]; norm_num)]
      simp [Float64.le]; norm_num)
    (by
      rw [default_lookup _ (by simp [inPercentRange, Float64.le]; norm_num)]
      simp [Float64.le]; norm_num)

/-- Claim C20. In `run` the access `convertedColors[len(convertedColors)-1]` is never
out of bounds: splitting the colour flag yields at least one token, a colour loop that
completes has appended one colour per token, so the list has a last element; the
construction never ends in an index panic, and a constructed threshold list has at
least two entries. -/
theorem last_colour_access_in_bounds (parseFloat : String → Option Float64)
    (parseUint : String → Option ℕ) (t c : String) :
    split c ',' ≠ [] ∧
    (∀ convertedColors, parseColors parseUint (split c ',') [] = Except.ok convertedColors →
      convertedColors.length = (split c ',').length ∧
      ∃ last, convertedColors.getLast? = some last) ∧
    buildTable parseFloat parseUint t c ≠ Except.error Failure.indexOutOfRange ∧
    (∀ thresholds colors, buildTable parseFloat parseUint t c = Except.ok (thresholds, colors) →
      2 ≤ thresholds.length ∧ 2 ≤ colors.length) := by
  refine ⟨split_ne_nil c ',', ?_, buildTable_no_panic parseFloat parseUint t c,
    fun ths cols h => buildTable_lengths h⟩
  intro cols hC
  have hlen := parseColors_length parseUint _ _ _ hC
  simp only [List.length_nil, zero_add] at hlen
  refine ⟨hlen, ?_⟩
  have hpos : 0 < (split c ',').length := List.length_pos.2 (split_ne_nil c ',')
  cases hl : cols.getLast? with
  | some last => exact ⟨last, rfl⟩
  | none =>
    rw [List.getLast?_eq_none_iff] at hl
    rw [hl] at hlen
    simp at hlen
    omega

end LuminanceConverter
